/-
  Verification of the SBOM assembly and merge engine (Syft/SbomCommand.py).

  The Python source is shallowly embedded: projects are nodes of an abstract
  graph (identified by natural numbers), the resolver / component builder /
  dependency-edge builder / document assembler / fragment merge engine are
  translated as executable Lean functions, and Python exceptions are modelled
  with `Except PyError`.  Warnings emitted through the logging facility are
  collected in explicit lists.
-/
import Mathlib

/-- A log entry severity, mirroring waflib.Logs.warn versus waflib.Logs.info. -/
inductive LogLevel where
  | info
  | warn
deriving DecidableEq

/-- Python exceptions that the translated code can raise: `waflib.Errors.WafError`
raised explicitly by the component builder, `KeyError` from dict/set access, and
I/O errors from reading or writing files. -/
inductive PyError where
  | wafError (message : String)
  | keyError (message : String)
  | ioError (message : String)
deriving DecidableEq

/-- Rendering of an exception as its message, as `str(error)` would in the log line. -/
def renderPyError : PyError → String
  | .wafError m => m
  | .keyError m => m
  | .ioError m => m

/-- The global command-line options consulted by the command
(`waflib.Options.options.product_version` and `sbom_document_version`). -/
structure Options where
  product_version : String
  sbom_document_version : Int
deriving DecidableEq

/-- A Waf project node: its name, the optional metadata attributes read with
`getattr(project.TaskGenerator, ...)`, and the external classifier predicates
(`Project.IsThirdParty`, `Project.IsLibrary`, `Project.IsDefaultVersionProject`). -/
structure ProjectNode where
  Name : String
  version_number : Option String
  license_name : Option String
  sbom_package_url : Option String
  sbom_unique_id : Option String
  IsThirdParty : Bool
  IsLibrary : Bool
  IsDefaultVersionProject : Bool
deriving DecidableEq

/-- The external dependency-graph oracle (`bld.ProjectGraph`): node data plus the
`GetAllDependencies` and `GetImmediateDependencies` query results.  Python returns
sets; we model each returned collection as a list in its iteration order. -/
structure ProjectGraph where
  nodes : Nat → ProjectNode
  GetAllDependencies : Nat → List Nat
  GetImmediateDependencies : Nat → List Nat

/-- The in-memory CycloneDX component dict built by `_GetSbomComponentJsonObject`:
all keys below are always set by the resolver, except `purl`, which is present
exactly when a package URL value was obtained. -/
structure Component where
  bomRef : String
  type : String
  name : String
  version : String
  licenseName : String
  purl : Option String
deriving DecidableEq

/-- A component object as found in a persisted JSON document or in an externally
produced fragment document: every key may be absent (`none`). -/
structure JsonComponent where
  bomRef : Option String
  type : Option String
  name : Option String
  version : Option String
  licenseName : Option String
  purl : Option String
deriving DecidableEq

/-- A dependency entry `{ref, dependsOn}` of a persisted JSON document. -/
structure JsonEdge where
  ref : Option String
  dependsOn : Option (List String)
deriving DecidableEq

/-- The persisted Custom Software SBOM document.  The header fields and the
`components` / `dependencies` keys are always written by the assembler. -/
structure JsonDocument where
  bomFormat : String
  specVersion : String
  version : Int
  timestamp : String
  toolName : String
  toolVersion : String
  components : List JsonComponent
  dependencies : List JsonEdge
deriving DecidableEq

/-- An externally produced (Syft) fragment document; only its `components` key is
read by the merge engine, and that key may be missing. -/
structure JsonFragment where
  components : Option (List JsonComponent)
deriving DecidableEq

/-- The outcome of `_GetSbomComponentJsonObject`: the component, the warnings
logged while resolving it, and — to make the treatment of the graph oracle's
returned collections observable — the final contents of the
`immediate_dependencies` set obtained from the oracle (`none` when the
default-version branch never obtained one). -/
structure ResolveResult where
  component : Component
  warnings : List String
  immediateDependenciesAfter : Option (List Nat)
deriving DecidableEq

/-- Warning logged when a third-party project has no version number. -/
def noVersionNumberWarning (name : String) : String :=
  "No version number provided for third-party project " ++ name ++
    ". A generic version number will be used, which likely will not meet security compliance requirements."

/-- Warning logged when a third-party project has no license name. -/
def noLicenseNameWarning (name : String) : String :=
  "No license name provided for third-party project " ++ name ++
    ". A generic license name will be used, which likely will not meet security compliance requirements."

/-- Warning logged when a third-party project has no package URL. -/
def noPackageUrlWarning (name : String) : String :=
  "No SBOM Package Url (PURL) provided for third-party project " ++ name ++
    ". A generic PURL will be used, which likely will not meet security compliance requirements."

/-- The `GET THE PROJECT VERSION NUMBER` block of `_GetSbomComponentJsonObject`:
explicit attribute, else inherited from the referenced default-version project,
else the `"Unknown"` sentinel (third-party, with a warning) or the globally
configured product version (first-party). -/
def resolveVersionNumber (opts : Options) (project : ProjectNode)
    (inherited_version_project : Option ProjectNode) : String × List String :=
  let version_number : Option String :=
    match project.version_number, inherited_version_project with
    | none, some q => q.version_number
    | v, _ => v
  match version_number with
  | some v => (v, [])
  | none =>
    if project.IsThirdParty then ("Unknown", [noVersionNumberWarning project.Name])
    else (opts.product_version, [])

/-- The `GET THE PROJECT LICENSE NAME` block: explicit attribute, else inherited,
else the `"Unknown Third-Party License"` sentinel (third-party, with a warning)
or the fixed proprietary license string (first-party). -/
def resolveLicenseName (project : ProjectNode)
    (inherited_version_project : Option ProjectNode) : String × List String :=
  let license_name : Option String :=
    match project.license_name, inherited_version_project with
    | none, some q => q.license_name
    | l, _ => l
  match license_name with
  | some l => (l, [])
  | none =>
    if project.IsThirdParty then
      ("Unknown Third-Party License", [noLicenseNameWarning project.Name])
    else ("Your Organization Proprietary", [])

/-- The `GET THE PACKAGE URL` block: explicit attribute, else inherited; when a
third-party project still lacks one, a generic PURL is synthesized from the
project name and the already-resolved version number, with a warning. -/
def resolvePackageUrl (project : ProjectNode)
    (inherited_version_project : Option ProjectNode)
    (version_number : String) : Option String × List String :=
  let package_url : Option String :=
    match project.sbom_package_url, inherited_version_project with
    | none, some q => q.sbom_package_url
    | u, _ => u
  if project.IsThirdParty && package_url.isNone then
    (some ("pkg:generic/" ++ project.Name ++ "@" ++ version_number),
     [noPackageUrlWarning project.Name])
  else (package_url, [])

/-- Lines 410-517 of `_GetSbomComponentJsonObject`: attribute resolution and
assembly of the component JSON object, after the default-version block has
determined the (possibly absent) inherited project. -/
def GetSbomComponentJsonObjectResolved (g : ProjectGraph) (opts : Options) (p : Nat)
    (inherited_version_project : Option ProjectNode)
    (immediateDependenciesAfter : Option (List Nat)) : ResolveResult :=
  let project := g.nodes p
  let (version_number, version_warnings) :=
    resolveVersionNumber opts project inherited_version_project
  let (license_name, license_warnings) :=
    resolveLicenseName project inherited_version_project
  let component_type : String := if project.IsLibrary then "library" else "application"
  let (package_url, purl_warnings) :=
    resolvePackageUrl project inherited_version_project version_number
  let unique_id : String := project.sbom_unique_id.getD project.Name
  { component := { bomRef := unique_id, type := component_type,
                   name := project.Name, version := version_number,
                   licenseName := license_name, purl := package_url },
    warnings := version_warnings ++ license_warnings ++ purl_warnings,
    immediateDependenciesAfter := immediateDependenciesAfter }

/-- Translation of `_GetSbomComponentJsonObject`.  For a default-version project
the single referenced project is obtained by calling `pop()` on the set returned
by `GetImmediateDependencies`; `pop()` removes that element from the returned
collection (and raises `KeyError` on an empty set). -/
def GetSbomComponentJsonObject (g : ProjectGraph) (opts : Options) (p : Nat) :
    Except PyError ResolveResult :=
  let project := g.nodes p
  if project.IsDefaultVersionProject then
    match g.GetImmediateDependencies p with
    | [] => .error (.keyError "pop from an empty set")
    | q :: rest =>
      .ok (GetSbomComponentJsonObjectResolved g opts p (some (g.nodes q)) (some rest))
  else .ok (GetSbomComponentJsonObjectResolved g opts p none none)

/-- The project a default-version project inherits metadata from: the element
`pop()` removes first from the oracle's immediate-dependencies result. -/
def inheritedVersionProject (g : ProjectGraph) (p : Nat) : Option Nat :=
  if (g.nodes p).IsDefaultVersionProject then (g.GetImmediateDependencies p).head?
  else none

/-- The finalized unique id (`bom-ref`) a project resolves to, when resolution
succeeds. -/
def resolvedBomRef (g : ProjectGraph) (opts : Options) (p : Nat) : Option String :=
  match GetSbomComponentJsonObject g opts p with
  | .ok r => some r.component.bomRef
  | .error _ => none

/-- Error message raised (as `waflib.Errors.WafError`) by
`_GetSbomComponentJsonObjectsForProjectAndDependencies` when two distinct
projects resolve to the same `bom-ref`. -/
def duplicateBomRefMessage (project_id : String) : String :=
  "Duplicate bom-ref detected in SBOM generation: " ++ project_id ++
    ".\n                    Each component must have a unique bom-ref."

/-- The loop body of `_GetSbomComponentJsonObjectsForProjectAndDependencies`:
walk the given projects, skipping projects already keyed in the lookup,
resolving each remaining project's component, raising a `WafError` when the
component's `bom-ref` is already among the lookup's values, and otherwise
appending the component and recording `lookup[project] = id`. -/
def buildComponentsAux (g : ProjectGraph) (opts : Options) :
    List Nat → List Component → List (Nat × String) →
    Except PyError (List Component × List (Nat × String))
  | [], comps, lookup => .ok (comps, lookup)
  | p :: rest, comps, lookup =>
    if (lookup.map Prod.fst).contains p then
      buildComponentsAux g opts rest comps lookup
    else
      match GetSbomComponentJsonObject g opts p with
      | .error e => .error e
      | .ok r =>
        let component := r.component
        if (lookup.map Prod.snd).contains component.bomRef then
          .error (.wafError (duplicateBomRefMessage component.bomRef))
        else
          buildComponentsAux g opts rest (comps ++ [component])
            (lookup ++ [(p, component.bomRef)])

/-- The iteration order over `{project} | GetAllDependencies(project)`: the
target project followed by its transitive dependencies. -/
def walkOrder (g : ProjectGraph) (t : Nat) : List Nat :=
  t :: g.GetAllDependencies t

/-- Translation of `_GetSbomComponentJsonObjectsForProjectAndDependencies`,
starting from the empty per-target lookup created by `Execute`. -/
def GetSbomComponentJsonObjectsForProjectAndDependencies (g : ProjectGraph)
    (opts : Options) (t : Nat) :
    Except PyError (List Component × List (Nat × String)) :=
  buildComponentsAux g opts (walkOrder g t) [] []

/-- Mapping each immediate dependency through
`project_to_unique_project_id_lookup[...]`; a missing key raises `KeyError`. -/
def mapLookup (lookup : List (Nat × String)) : List Nat → Except PyError (List String)
  | [] => .ok []
  | d :: ds =>
    match List.lookup d lookup with
    | none => .error (.keyError (toString d))
    | some uid =>
      match mapLookup lookup ds with
      | .error e => .error e
      | .ok rest => .ok (uid :: rest)

/-- The loop of `_GetSbomDependencyJsonObjects`: one `{ref, dependsOn}` entry per
`(project, unique_id)` item of the lookup, in insertion order, with `dependsOn`
the unique ids of the project's immediate dependencies. -/
def buildEdgesAux (g : ProjectGraph) (lookup : List (Nat × String)) :
    List (Nat × String) → Except PyError (List JsonEdge)
  | [] => .ok []
  | (p, unique_id) :: rest =>
    match mapLookup lookup (g.GetImmediateDependencies p) with
    | .error e => .error e
    | .ok immediate_dependency_unique_ids =>
      match buildEdgesAux g lookup rest with
      | .error e => .error e
      | .ok tail =>
        .ok ({ ref := some unique_id,
               dependsOn := some immediate_dependency_unique_ids } :: tail)

/-- Translation of `_GetSbomDependencyJsonObjects`. -/
def GetSbomDependencyJsonObjects (g : ProjectGraph) (lookup : List (Nat × String)) :
    Except PyError (List JsonEdge) :=
  buildEdgesAux g lookup lookup

/-- Serialization of a resolver-built component into its JSON object: the keys
written by `_GetSbomComponentJsonObject`, the `purl` key only when present. -/
def Component.toJson (c : Component) : JsonComponent :=
  { bomRef := some c.bomRef, type := some c.type, name := some c.name,
    version := some c.version, licenseName := some c.licenseName, purl := c.purl }

/-- Translation of `_GenerateInitialCustomSoftwareSbom`: build the components and
the per-component dependency entries, then assemble and persist the document
(its creation timestamp is an input of the model).  Returns the document
together with the populated lookup. -/
def GenerateInitialCustomSoftwareSbom (g : ProjectGraph) (opts : Options)
    (t : Nat) (timestamp : String) :
    Except PyError (JsonDocument × List (Nat × String)) :=
  match GetSbomComponentJsonObjectsForProjectAndDependencies g opts t with
  | .error e => .error e
  | .ok (sbom_component_json_objects, lookup) =>
    match GetSbomDependencyJsonObjects g lookup with
    | .error e => .error e
    | .ok sbom_dependency_json_objects =>
      .ok ({ bomFormat := "CycloneDX", specVersion := "1.6",
             version := opts.sbom_document_version, timestamp := timestamp,
             toolName := "Waf SBOM Command", toolVersion := "1.0.0",
             components := sbom_component_json_objects.map Component.toJson,
             dependencies := sbom_dependency_json_objects }, lookup)

/-- The set comprehension `{component['bom-ref'] for component in components}`
over the target document's components; a component without the key raises
`KeyError`. -/
def collectIds : List JsonComponent → Except PyError (List String)
  | [] => .ok []
  | c :: rest =>
    match c.bomRef with
    | none => .error (.keyError "bom-ref")
    | some i =>
      match collectIds rest with
      | .error e => .error e
      | .ok tail => .ok (i :: tail)

/-- The component loop of `_MergeDependencyMetadataSbomIntoCustomSoftwareSbom`:
skip fragment components whose `type` is `"file"`, then append each component
whose `bom-ref` is not yet defined, growing both the defined-id set and the
list of newly added ids. -/
def addFragComponents :
    List JsonComponent → List JsonComponent → List String → List String →
    Except PyError (List JsonComponent × List String × List String)
  | [], comps, ids, added => .ok (comps, ids, added)
  | c :: rest, comps, ids, added =>
    match c.type with
    | none => .error (.keyError "type")
    | some component_type =>
      if component_type = "file" then addFragComponents rest comps ids added
      else
        match c.bomRef with
        | none => .error (.keyError "bom-ref")
        | some component_unique_id =>
          if ids.contains component_unique_id then
            addFragComponents rest comps ids added
          else
            addFragComponents rest (comps ++ [c]) (ids ++ [component_unique_id])
              (added ++ [component_unique_id])

/-- The dict comprehension `{d['ref']: d for d in dependencies}`: every entry must
have a `ref` key; pairs are kept in list order (a repeated key is resolved by
`dictFind`, which prefers later pairs, as Python dict assignment does). -/
def buildEdgeLookup : List JsonEdge → Except PyError (List (String × JsonEdge))
  | [] => .ok []
  | e :: rest =>
    match e.ref with
    | none => .error (.keyError "ref")
    | some r =>
      match buildEdgeLookup rest with
      | .error er => .error er
      | .ok tail => .ok ((r, e) :: tail)

/-- Lookup in an association list built by `buildEdgeLookup`, with Python dict
semantics: the last pair with the key wins. -/
def dictFind : List (String × JsonEdge) → String → Option JsonEdge
  | [], _ => none
  | (k, v) :: rest, key =>
    match dictFind rest key with
    | some w => some w
    | none => if k = key then some v else none

/-- The dependsOn loop: append every newly added unique id that is not already
listed among the owning project's direct dependencies. -/
def appendNewDeps (deps : List String) (added : List String) : List String :=
  added.foldl (fun ds u => if ds.contains u then ds else ds ++ [u]) deps

/-- In-place mutation of the owning project's dependency entry inside the
document's `dependencies` list: the entry found through the ref-keyed dict is
the last one with that `ref`, and only its `dependsOn` value changes. -/
def updateLastEdge : List JsonEdge → String → List String → List JsonEdge
  | [], _, _ => []
  | e :: rest, owner_id, new_deps =>
    if rest.any (fun e2 => e2.ref == some owner_id) then
      e :: updateLastEdge rest owner_id new_deps
    else if e.ref == some owner_id then
      { e with dependsOn := some new_deps } :: rest
    else e :: rest

/-- The body of the `try` block of
`_MergeDependencyMetadataSbomIntoCustomSoftwareSbom`, in source order: read the
fragment, take its `components`, read the target document, collect the target's
defined ids, fold in the fragment components, look up the owning project's
unique id and its dependency entry, and extend that entry's `dependsOn`. -/
def mergeBody (project : Nat) (lookup : List (Nat × String))
    (fragment : Except PyError JsonFragment)
    (targetContent : Except PyError JsonDocument) : Except PyError JsonDocument :=
  match fragment with
  | .error e => .error e
  | .ok dependency_metadata_json_object =>
    match dependency_metadata_json_object.components with
    | none => .error (.keyError "components")
    | some components_from_dependency_metadata =>
      match targetContent with
      | .error e => .error e
      | .ok custom_software_sbom_json_object =>
        match collectIds custom_software_sbom_json_object.components with
        | .error e => .error e
        | .ok unique_ids_initially_defined =>
          match addFragComponents components_from_dependency_metadata
              custom_software_sbom_json_object.components
              unique_ids_initially_defined [] with
          | .error e => .error e
          | .ok (new_components, _, unique_ids_added) =>
            match List.lookup project lookup with
            | none => .error (.keyError (toString project))
            | some project_unique_id =>
              match buildEdgeLookup custom_software_sbom_json_object.dependencies with
              | .error e => .error e
              | .ok unique_id_to_dependency_entry_lookup =>
                match dictFind unique_id_to_dependency_entry_lookup project_unique_id with
                | none => .error (.keyError project_unique_id)
                | some waf_project_dependency_entry =>
                  match waf_project_dependency_entry.dependsOn with
                  | none => .error (.keyError "dependsOn")
                  | some direct_dependencies_for_waf_project =>
                    .ok { custom_software_sbom_json_object with
                          components := new_components,
                          dependencies :=
                            updateLastEdge
                              custom_software_sbom_json_object.dependencies
                              project_unique_id
                              (appendNewDeps direct_dependencies_for_waf_project
                                unique_ids_added) }

/-- The warning logged when the merge fails, carrying the owning project's name
and the rendered cause. -/
def mergeFailureMessage (name : String) (e : PyError) : String :=
  "Failed to merge components and dependencies for " ++ name ++
    " into Custom Software SBOM: " ++ renderPyError e

/-- The informational message logged after a successful merge. -/
def mergeSuccessMessage (name : String) : String :=
  "Components and dependencies for " ++ name ++ " merged into Custom Software SBOM."

/-- Translation of `_MergeDependencyMetadataSbomIntoCustomSoftwareSbom`.  The
whole body runs inside `try`; any exception is logged as a warning and turned
into a `False` return.  `writeResult` models `write_json` on the target file
(`none` = success); the third output is the target file's content afterwards,
which only changes when a fully merged document is written back. -/
def MergeDependencyMetadataSbomIntoCustomSoftwareSbom (project : Nat)
    (projectName : String) (lookup : List (Nat × String))
    (fragment : Except PyError JsonFragment)
    (targetContent : Except PyError JsonDocument)
    (writeResult : Option PyError) :
    Bool × List (LogLevel × String) × Except PyError JsonDocument :=
  match mergeBody project lookup fragment targetContent with
  | .error e =>
    (false, [(LogLevel.warn, mergeFailureMessage projectName e)], targetContent)
  | .ok newDocument =>
    match writeResult with
    | some e =>
      (false, [(LogLevel.warn, mergeFailureMessage projectName e)], targetContent)
    | none =>
      (true, [(LogLevel.info, mergeSuccessMessage projectName)], .ok newDocument)

lemma resolvedBomRef_eq_some {g : ProjectGraph} {opts : Options} {p : Nat} {s : String} :
    resolvedBomRef g opts p = some s ↔
      ∃ r, GetSbomComponentJsonObject g opts p = .ok r ∧ r.component.bomRef = s := by
  unfold resolvedBomRef
  cases h : GetSbomComponentJsonObject g opts p <;> simp

lemma buildComponentsAux_ok_invariant (g : ProjectGraph) (opts : Options) :
    ∀ ws comps lookup comps' lookup',
      buildComponentsAux g opts ws comps lookup = .ok (comps', lookup') →
      lookup.map Prod.snd = comps.map Component.bomRef →
      (comps.map Component.bomRef).Nodup →
      lookup'.map Prod.snd = comps'.map Component.bomRef ∧
        (comps'.map Component.bomRef).Nodup := by
  intro ws
  induction ws with
  | nil =>
    intro comps lookup comps' lookup' h hinv hnd
    simp only [buildComponentsAux, Except.ok.injEq, Prod.mk.injEq] at h
    obtain ⟨h1, h2⟩ := h
    subst h1; subst h2
    exact ⟨hinv, hnd⟩
  | cons p rest ih =>
    intro comps lookup comps' lookup' h hinv hnd
    rw [buildComponentsAux] at h
    by_cases hc : ((lookup.map Prod.fst).contains p = true)
    · rw [if_pos hc] at h
      exact ih _ _ _ _ h hinv hnd
    · rw [if_neg hc] at h
      cases hr : GetSbomComponentJsonObject g opts p with
      | error e => rw [hr] at h; exact absurd h (by simp)
      | ok r =>
        rw [hr] at h
        simp only at h
        by_cases hdup : ((lookup.map Prod.snd).contains r.component.bomRef = true)
        · rw [if_pos hdup] at h; exact absurd h (by simp)
        · rw [if_neg hdup] at h
          apply ih _ _ _ _ h
          · simp [hinv]
          · rw [List.map_append]
            refine List.nodup_append.mpr ⟨hnd, by simp, ?_⟩
            intro a ha hb
            simp only [List.map_cons, List.map_nil, List.mem_singleton] at hb
            subst hb
            rw [hinv] at hdup
            simp [List.contains] at hdup
            obtain ⟨c, hcmem, hceq⟩ := List.mem_map.mp ha
            exact hdup c hcmem hceq

lemma buildComponentsAux_collision (g : ProjectGraph) (opts : Options) {p q : Nat}
    {v : String} (hpq : p ≠ q)
    (hp : resolvedBomRef g opts p = some v)
    (hq : resolvedBomRef g opts q = some v) :
    ∀ ws comps lookup,
      (∀ e ∈ lookup, resolvedBomRef g opts e.1 = some e.2) →
      (lookup.map Prod.snd).Nodup →
      (p ∈ ws ∨ p ∈ lookup.map Prod.fst) →
      (q ∈ ws ∨ q ∈ lookup.map Prod.fst) →
      (∀ w ∈ ws, resolvedBomRef g opts w ≠ none) →
      ∃ cid, buildComponentsAux g opts ws comps lookup =
        .error (.wafError (duplicateBomRefMessage cid)) := by
  intro ws
  induction ws with
  | nil =>
    intro comps lookup hent hnd hpw hqw _
    exfalso
    rcases hpw with h | hpk
    · exact absurd h (List.not_mem_nil p)
    rcases hqw with h | hqk
    · exact absurd h (List.not_mem_nil q)
    obtain ⟨ep, hep, hep1⟩ := List.mem_map.mp hpk
    obtain ⟨eq', heq, heq1⟩ := List.mem_map.mp hqk
    have hv1 : ep.2 = v := by
      have h1 := hent ep hep
      rw [hep1, hp] at h1
      exact (Option.some.inj h1).symm
    have hv2 : eq'.2 = v := by
      have h1 := hent eq' heq
      rw [heq1, hq] at h1
      exact (Option.some.inj h1).symm
    have heqpq : ep = eq' := by
      refine List.inj_on_of_nodup_map hnd hep heq ?_
      show ep.2 = eq'.2
      rw [hv1, hv2]
    apply hpq
    rw [← hep1, ← heq1, heqpq]
  | cons h rest ih =>
    intro comps lookup hent hnd hpw hqw hres
    by_cases hc : ((lookup.map Prod.fst).contains h = true)
    · have hkey : h ∈ lookup.map Prod.fst := by simpa [List.contains] using hc
      have hp' : p ∈ rest ∨ p ∈ lookup.map Prod.fst := by
        rcases hpw with hpw | hpk
        · rcases List.mem_cons.mp hpw with rfl | hpr
          · right; exact hkey
          · left; exact hpr
        · right; exact hpk
      have hq' : q ∈ rest ∨ q ∈ lookup.map Prod.fst := by
        rcases hqw with hqw | hqk
        · rcases List.mem_cons.mp hqw with rfl | hqr
          · right; exact hkey
          · left; exact hqr
        · right; exact hqk
      obtain ⟨cid, hcid⟩ := ih comps lookup hent hnd hp' hq'
        (fun w hw => hres w (List.mem_cons_of_mem h hw))
      exact ⟨cid, by rw [buildComponentsAux, if_pos hc]; exact hcid⟩
    · have hrh := hres h (List.mem_cons_self h rest)
      cases hrok : GetSbomComponentJsonObject g opts h with
      | error e =>
        exfalso
        unfold resolvedBomRef at hrh
        rw [hrok] at hrh
        simp at hrh
      | ok r =>
        by_cases hdup : ((lookup.map Prod.snd).contains r.component.bomRef = true)
        · refine ⟨r.component.bomRef, ?_⟩
          rw [buildComponentsAux, if_neg hc, hrok]
          simp only
          rw [if_pos hdup]
        · have hent' : ∀ e ∈ lookup ++ [(h, r.component.bomRef)],
              resolvedBomRef g opts e.1 = some e.2 := by
            intro e he
            rcases List.mem_append.mp he with he | he
            · exact hent e he
            · simp only [List.mem_singleton] at he
              subst he
              unfold resolvedBomRef
              rw [hrok]
          have hnd' : ((lookup ++ [(h, r.component.bomRef)]).map Prod.snd).Nodup := by
            rw [List.map_append]
            refine List.nodup_append.mpr ⟨hnd, by simp, ?_⟩
            intro a ha hb
            simp only [List.map_cons, List.map_nil, List.mem_singleton] at hb
            subst hb
            apply hdup
            simpa [List.contains] using ha
          have hkeys : (lookup ++ [(h, r.component.bomRef)]).map Prod.fst =
              lookup.map Prod.fst ++ [h] := by simp
          have hp' : p ∈ rest ∨ p ∈ (lookup ++ [(h, r.component.bomRef)]).map Prod.fst := by
            rcases hpw with hpw | hpk
            · rcases List.mem_cons.mp hpw with rfl | hpr
              · right; rw [hkeys]; exact List.mem_append_right _ (by simp)
              · left; exact hpr
            · right; rw [hkeys]; exact List.mem_append_left _ hpk
          have hq' : q ∈ rest ∨ q ∈ (lookup ++ [(h, r.component.bomRef)]).map Prod.fst := by
            rcases hqw with hqw | hqk
            · rcases List.mem_cons.mp hqw with rfl | hqr
              · right; rw [hkeys]; exact List.mem_append_right _ (by simp)
              · left; exact hqr
            · right; rw [hkeys]; exact List.mem_append_left _ hqk
          obtain ⟨cid, hcid⟩ := ih (comps ++ [r.component])
            (lookup ++ [(h, r.component.bomRef)]) hent' hnd' hp' hq'
            (fun w hw => hres w (List.mem_cons_of_mem h hw))
          refine ⟨cid, ?_⟩
          rw [buildComponentsAux, if_neg hc, hrok]
          simp only
          rw [if_neg hdup]
          exact hcid

/-- C1: if component building for a target project succeeds, no two of the built
components share a `bom-ref`; and whenever two distinct project nodes of the
walk resolve to the same finalized unique id, the builder aborts with the
fatal `WafError` whose message names the colliding id — it never returns a
component list with one of the two silently dropped or overwritten. -/
theorem C1_duplicate_bom_ref_fatal (g : ProjectGraph) (opts : Options) (t : Nat) :
    (∀ comps lookup,
      GetSbomComponentJsonObjectsForProjectAndDependencies g opts t = .ok (comps, lookup) →
      (comps.map Component.bomRef).Nodup) ∧
    (∀ p q, p ∈ walkOrder g t → q ∈ walkOrder g t → p ≠ q →
      resolvedBomRef g opts p ≠ none →
      resolvedBomRef g opts p = resolvedBomRef g opts q →
      (∀ w ∈ walkOrder g t, resolvedBomRef g opts w ≠ none) →
      ∃ cid, GetSbomComponentJsonObjectsForProjectAndDependencies g opts t =
          .error (.wafError (duplicateBomRefMessage cid)) ∧
        ∃ s1 s2, duplicateBomRefMessage cid = s1 ++ cid ++ s2) := by
  constructor
  · intro comps lookup h
    exact (buildComponentsAux_ok_invariant g opts _ [] [] comps lookup h rfl (by simp)).2
  · intro p q hpmem hqmem hpq hpne hpeq hall
    cases hv : resolvedBomRef g opts p with
    | none => exact absurd hv hpne
    | some v =>
      have hqv : resolvedBomRef g opts q = some v := by rw [← hpeq, hv]
      obtain ⟨cid, hcid⟩ := buildComponentsAux_collision g opts hpq hv hqv
        (walkOrder g t) [] [] (by simp) (by simp) (Or.inl hpmem) (Or.inl hqmem) hall
      exact ⟨cid, hcid, "Duplicate bom-ref detected in SBOM generation: ",
        ".\n                    Each component must have a unique bom-ref.", rfl⟩

/-- A pair of distinct projects that resolve to the same manually overridden
unique id `"dup"`. -/
def collidingNode (n : Nat) : ProjectNode :=
  { Name := "Proj" ++ toString n, version_number := some "1.0",
    license_name := some "MIT", sbom_package_url := none,
    sbom_unique_id := some "dup", IsThirdParty := false, IsLibrary := true,
    IsDefaultVersionProject := false }

/-- A graph whose target project 0 depends on project 1, both resolving to the
unique id `"dup"`. -/
def collidingGraph : ProjectGraph :=
  { nodes := collidingNode, GetAllDependencies := fun _ => [1],
    GetImmediateDependencies := fun _ => [] }

/-- Options used by the concrete examples. -/
def exampleOptions : Options := { product_version := "1.0", sbom_document_version := 1 }

/-- Witness for C1: on the concrete colliding graph, component building aborts
with the fatal duplicate-id error naming the id. -/
theorem C1_duplicate_bom_ref_fatal_witness :
    ∃ cid, GetSbomComponentJsonObjectsForProjectAndDependencies collidingGraph
        exampleOptions 0 = .error (.wafError (duplicateBomRefMessage cid)) ∧
      ∃ s1 s2, duplicateBomRefMessage cid = s1 ++ cid ++ s2 :=
  (C1_duplicate_bom_ref_fatal collidingGraph exampleOptions 0).2 0 1
    (by decide) (by decide) (by decide) (by decide) (by decide) (by decide)

lemma resolve_not_default {g : ProjectGraph} {opts : Options} {p : Nat}
    (h : (g.nodes p).IsDefaultVersionProject = false) :
    GetSbomComponentJsonObject g opts p =
      .ok (GetSbomComponentJsonObjectResolved g opts p none none) := by
  simp [GetSbomComponentJsonObject, h]

lemma resolve_default {g : ProjectGraph} {opts : Options} {p q : Nat} {rest : List Nat}
    (h : (g.nodes p).IsDefaultVersionProject = true)
    (hd : g.GetImmediateDependencies p = q :: rest) :
    GetSbomComponentJsonObject g opts p =
      .ok (GetSbomComponentJsonObjectResolved g opts p (some (g.nodes q)) (some rest)) := by
  simp [GetSbomComponentJsonObject, h, hd]
lemma resolve_default_empty {g : ProjectGraph} {opts : Options} {p : Nat}
    (h : (g.nodes p).IsDefaultVersionProject = true)
    (hd : g.GetImmediateDependencies p = []) :
    GetSbomComponentJsonObject g opts p = .error (.keyError "pop from an empty set") := by
  simp [GetSbomComponentJsonObject, h, hd]

lemma resolve_ok_shape {g : ProjectGraph} {opts : Options} {p : Nat} {r : ResolveResult}
    (h : GetSbomComponentJsonObject g opts p = .ok r) :
    (∃ q rest, (g.nodes p).IsDefaultVersionProject = true ∧
        g.GetImmediateDependencies p = q :: rest ∧
        r = GetSbomComponentJsonObjectResolved g opts p (some (g.nodes q)) (some rest)) ∨
      ((g.nodes p).IsDefaultVersionProject = false ∧
        r = GetSbomComponentJsonObjectResolved g opts p none none) := by
  by_cases hd : ((g.nodes p).IsDefaultVersionProject = true)
  · cases hdeps : g.GetImmediateDependencies p with
    | nil =>
      exfalso
      rw [resolve_default_empty hd hdeps] at h
      exact Except.noConfusion h
    | cons q rest =>
      left
      refine ⟨q, rest, hd, rfl, ?_⟩
      rw [resolve_default hd hdeps] at h
      exact (Except.ok.inj h).symm
  · right
    rw [Bool.not_eq_true] at hd
    refine ⟨hd, ?_⟩
    rw [resolve_not_default hd] at h
    exact (Except.ok.inj h).symm

lemma resolveVersionNumber_provided {opts : Options} {project : ProjectNode}
    {inh : Option ProjectNode} {v : String} (hv : project.version_number = some v) :
    resolveVersionNumber opts project inh = (v, []) := by
  cases inh <;> simp [resolveVersionNumber, hv]

lemma resolveVersionNumber_missing (opts : Options) {project : ProjectNode}
    {inh : Option ProjectNode} (hv : project.version_number = none)
    (hi : ∀ q, inh = some q → q.version_number = none) :
    resolveVersionNumber opts project inh =
      (if project.IsThirdParty then ("Unknown", [noVersionNumberWarning project.Name])
       else (opts.product_version, [])) := by
  cases inh with
  | none => simp [resolveVersionNumber, hv]
  | some q => simp [resolveVersionNumber, hv, hi q rfl]

lemma resolveVersionNumber_inherited {opts : Options} {project q : ProjectNode}
    {w : String} (hv : project.version_number = none) (hq : q.version_number = some w) :
    resolveVersionNumber opts project (some q) = (w, []) := by
  simp [resolveVersionNumber, hv, hq]

lemma resolveLicenseName_provided {project : ProjectNode} {inh : Option ProjectNode}
    {l : String} (hl : project.license_name = some l) :
    resolveLicenseName project inh = (l, []) := by
  cases inh <;> simp [resolveLicenseName, hl]

lemma resolveLicenseName_missing {project : ProjectNode} {inh : Option ProjectNode}
    (hl : project.license_name = none)
    (hi : ∀ q, inh = some q → q.license_name = none) :
    resolveLicenseName project inh =
      (if project.IsThirdParty then
         ("Unknown Third-Party License", [noLicenseNameWarning project.Name])
       else ("Your Organization Proprietary", [])) := by
  cases inh with
  | none => simp [resolveLicenseName, hl]
  | some q => simp [resolveLicenseName, hl, hi q rfl]

lemma resolveLicenseName_inherited {project q : ProjectNode} {w : String}
    (hl : project.license_name = none) (hq : q.license_name = some w) :
    resolveLicenseName project (some q) = (w, []) := by
  simp [resolveLicenseName, hl, hq]

lemma resolvePackageUrl_provided {project : ProjectNode} (inh : Option ProjectNode)
    (version_number : String) {u : String} (hu : project.sbom_package_url = some u) :
    resolvePackageUrl project inh version_number = (some u, []) := by
  cases inh <;> simp [resolvePackageUrl, hu]

lemma resolvePackageUrl_missing {project : ProjectNode} {inh : Option ProjectNode}
    (version_number : String) (hu : project.sbom_package_url = none)
    (hi : ∀ q, inh = some q → q.sbom_package_url = none) :
    resolvePackageUrl project inh version_number =
      (if project.IsThirdParty then
         (some ("pkg:generic/" ++ project.Name ++ "@" ++ version_number),
          [noPackageUrlWarning project.Name])
       else (none, [])) := by
  cases ht : project.IsThirdParty with
  | false =>
    cases inh with
    | none => simp [resolvePackageUrl, hu, ht]
    | some q => simp [resolvePackageUrl, hu, hi q rfl, ht]
  | true =>
    cases inh with
    | none => simp [resolvePackageUrl, hu, ht]
    | some q => simp [resolvePackageUrl, hu, hi q rfl, ht]

lemma resolvePackageUrl_inherited {project q : ProjectNode} (version_number : String)
    {u : String} (hu : project.sbom_package_url = none) (hq : q.sbom_package_url = some u) :
    resolvePackageUrl project (some q) version_number = (some u, []) := by
  simp [resolvePackageUrl, hu, hq]

lemma Resolved_eq {g : ProjectGraph} {opts : Options} {p : Nat}
    {inh : Option ProjectNode} {ia : Option (List Nat)} {vn ln : String}
    {vw lw pw : List String} {pu : Option String}
    (hv : resolveVersionNumber opts (g.nodes p) inh = (vn, vw))
    (hl : resolveLicenseName (g.nodes p) inh = (ln, lw))
    (hp : resolvePackageUrl (g.nodes p) inh vn = (pu, pw)) :
    GetSbomComponentJsonObjectResolved g opts p inh ia =
      { component := { bomRef := (g.nodes p).sbom_unique_id.getD (g.nodes p).Name,
                       type := if (g.nodes p).IsLibrary then "library" else "application",
                       name := (g.nodes p).Name, version := vn,
                       licenseName := ln, purl := pu },
        warnings := vw ++ lw ++ pw,
        immediateDependenciesAfter := ia } := by
  simp [GetSbomComponentJsonObjectResolved, hv, hl, hp]

lemma resolveVersionNumber_first_party_no_warning (opts : Options) {project : ProjectNode}
    (inh : Option ProjectNode) (ht : project.IsThirdParty = false) :
    (resolveVersionNumber opts project inh).2 = [] := by
  cases hv : project.version_number with
  | some v => simp [resolveVersionNumber_provided hv]
  | none =>
    cases inh with
    | none => simp [resolveVersionNumber, hv, ht]
    | some q =>
      cases hq : q.version_number with
      | some w => simp [resolveVersionNumber_inherited hv hq]
      | none => simp [resolveVersionNumber, hv, hq, ht]

lemma resolveLicenseName_first_party_no_warning {project : ProjectNode}
    (inh : Option ProjectNode) (ht : project.IsThirdParty = false) :
    (resolveLicenseName project inh).2 = [] := by
  cases hl : project.license_name with
  | some l => simp [resolveLicenseName_provided hl]
  | none =>
    cases inh with
    | none => simp [resolveLicenseName, hl, ht]
    | some q =>
      cases hq : q.license_name with
      | some w => simp [resolveLicenseName_inherited hl hq]
      | none => simp [resolveLicenseName, hl, hq, ht]

lemma resolvePackageUrl_first_party_no_warning {project : ProjectNode}
    (inh : Option ProjectNode) (vn : String) (ht : project.IsThirdParty = false) :
    (resolvePackageUrl project inh vn).2 = [] := by
  simp [resolvePackageUrl, ht]

lemma C5_core (g : ProjectGraph) (opts : Options) (p : Nat) (inh : Option ProjectNode)
    (ia : Option (List Nat)) (r : ResolveResult)
    (hr : r = GetSbomComponentJsonObjectResolved g opts p inh ia) :
    ((g.nodes p).IsThirdParty = true →
      ((g.nodes p).version_number = none →
       (∀ q, inh = some q → q.version_number = none) →
       r.component.version = "Unknown" ∧
         noVersionNumberWarning (g.nodes p).Name ∈ r.warnings) ∧
      ((g.nodes p).license_name = none →
       (∀ q, inh = some q → q.license_name = none) →
       r.component.licenseName = "Unknown Third-Party License" ∧
         noLicenseNameWarning (g.nodes p).Name ∈ r.warnings)) ∧
    ((g.nodes p).IsThirdParty = false →
      r.warnings = [] ∧
      ((g.nodes p).version_number = none →
       (∀ q, inh = some q → q.version_number = none) →
       r.component.version = opts.product_version) ∧
      ((g.nodes p).license_name = none →
       (∀ q, inh = some q → q.license_name = none) →
       r.component.licenseName = "Your Organization Proprietary")) := by
  rcases hvp : resolveVersionNumber opts (g.nodes p) inh with ⟨vn, vw⟩
  rcases hlp : resolveLicenseName (g.nodes p) inh with ⟨ln, lw⟩
  rcases hpp : resolvePackageUrl (g.nodes p) inh vn with ⟨pu, pw⟩
  subst hr
  rw [Resolved_eq hvp hlp hpp]
  constructor
  · intro ht
    constructor
    · intro hv0 hi
      have hmiss := resolveVersionNumber_missing opts hv0 hi
      rw [ht, hvp] at hmiss
      simp at hmiss
      obtain ⟨h1, h2⟩ := hmiss
      subst h1; subst h2
      simp
    · intro hl0 hi
      have hmiss := resolveLicenseName_missing hl0 hi
      rw [ht, hlp] at hmiss
      simp at hmiss
      obtain ⟨h1, h2⟩ := hmiss
      subst h1; subst h2
      simp
  · intro ht
    refine ⟨?_, ?_, ?_⟩
    · have h1 := resolveVersionNumber_first_party_no_warning opts inh ht
      have h2 := resolveLicenseName_first_party_no_warning inh ht
      have h3 := resolvePackageUrl_first_party_no_warning inh vn ht
      rw [hvp] at h1
      rw [hlp] at h2
      rw [hpp] at h3
      simp at h1 h2 h3
      simp [h1, h2, h3]
    · intro hv0 hi
      have hmiss := resolveVersionNumber_missing opts hv0 hi
      rw [ht, hvp] at hmiss
      simp at hmiss
      obtain ⟨h1, h2⟩ := hmiss
      subst h1
      simp
    · intro hl0 hi
      have hmiss := resolveLicenseName_missing hl0 hi
      rw [ht, hlp] at hmiss
      simp at hmiss
      obtain ⟨h1, h2⟩ := hmiss
      subst h1
      simp

/-- C5: a third-party project with no explicit and no inherited version resolves
to the sentinel version `"Unknown"` with a logged warning; likewise for a
missing license the sentinel `"Unknown Third-Party License"` with a warning;
a first-party project instead falls back to the globally configured product
version and the fixed proprietary license string, and emits no warning. -/
theorem C5_metadata_fallback_sentinels (g : ProjectGraph) (opts : Options) (p : Nat)
    (r : ResolveResult) (h : GetSbomComponentJsonObject g opts p = .ok r) :
    ((g.nodes p).IsThirdParty = true →
      ((g.nodes p).version_number = none →
       (∀ q, inheritedVersionProject g p = some q → (g.nodes q).version_number = none) →
       r.component.version = "Unknown" ∧
         noVersionNumberWarning (g.nodes p).Name ∈ r.warnings) ∧
      ((g.nodes p).license_name = none →
       (∀ q, inheritedVersionProject g p = some q → (g.nodes q).license_name = none) →
       r.component.licenseName = "Unknown Third-Party License" ∧
         noLicenseNameWarning (g.nodes p).Name ∈ r.warnings)) ∧
    ((g.nodes p).IsThirdParty = false →
      r.warnings = [] ∧
      ((g.nodes p).version_number = none →
       (∀ q, inheritedVersionProject g p = some q → (g.nodes q).version_number = none) →
       r.component.version = opts.product_version) ∧
      ((g.nodes p).license_name = none →
       (∀ q, inheritedVersionProject g p = some q → (g.nodes q).license_name = none) →
       r.component.licenseName = "Your Organization Proprietary")) := by
  obtain (⟨q, rest, hd, hdeps, hr⟩ | ⟨hd, hr⟩) := resolve_ok_shape h
  · have hinh : inheritedVersionProject g p = some q := by
      simp [inheritedVersionProject, hd, hdeps]
    have core := C5_core g opts p (some (g.nodes q)) (some rest) r hr
    have tr : ∀ P : ProjectNode → Prop,
        (∀ q', inheritedVersionProject g p = some q' → P (g.nodes q')) →
        ∀ q', some (g.nodes q) = some q' → P q' := by
      intro P hP q' hq'
      injection hq' with h2
      rw [← h2]
      exact hP q hinh
    exact ⟨fun ht => ⟨fun hv0 hiv => (core.1 ht).1 hv0 (tr _ hiv),
                      fun hl0 hil => (core.1 ht).2 hl0 (tr _ hil)⟩,
           fun ht => ⟨(core.2 ht).1,
                      fun hv0 hiv => (core.2 ht).2.1 hv0 (tr _ hiv),
                      fun hl0 hil => (core.2 ht).2.2 hl0 (tr _ hil)⟩⟩
  · have core := C5_core g opts p none none r hr
    exact ⟨fun ht => ⟨fun hv0 _ => (core.1 ht).1 hv0
                        (fun q' hq' => Option.noConfusion hq'),
                      fun hl0 _ => (core.1 ht).2 hl0
                        (fun q' hq' => Option.noConfusion hq')⟩,
           fun ht => ⟨(core.2 ht).1,
                      fun hv0 _ => (core.2 ht).2.1 hv0
                        (fun q' hq' => Option.noConfusion hq'),
                      fun hl0 _ => (core.2 ht).2.2 hl0
                        (fun q' hq' => Option.noConfusion hq')⟩⟩

/-- A third-party project with no metadata at all. -/
def thirdPartyBareNode : ProjectNode :=
  { Name := "LibBare", version_number := none, license_name := none,
    sbom_package_url := none, sbom_unique_id := none, IsThirdParty := true,
    IsLibrary := true, IsDefaultVersionProject := false }

/-- A one-project graph holding only `thirdPartyBareNode`. -/
def thirdPartyBareGraph : ProjectGraph :=
  { nodes := fun _ => thirdPartyBareNode, GetAllDependencies := fun _ => [],
    GetImmediateDependencies := fun _ => [] }

/-- Witness for C5: the bare third-party project resolves to the sentinel
version with the corresponding warning. -/
theorem C5_metadata_fallback_sentinels_witness :
    (GetSbomComponentJsonObjectResolved thirdPartyBareGraph exampleOptions 0
        none none).component.version = "Unknown" ∧
      noVersionNumberWarning "LibBare" ∈
        (GetSbomComponentJsonObjectResolved thirdPartyBareGraph exampleOptions 0
          none none).warnings :=
  ((C5_metadata_fallback_sentinels thirdPartyBareGraph exampleOptions 0
      (GetSbomComponentJsonObjectResolved thirdPartyBareGraph exampleOptions 0 none none)
      rfl).1 rfl).1 rfl (fun _ hq => Option.noConfusion hq)

/-- A third-party project with an explicit version but no package URL. -/
def purlLessThirdPartyNode : ProjectNode :=
  { Name := "LibFoo", version_number := some "2.1", license_name := some "MIT",
    sbom_package_url := none, sbom_unique_id := none, IsThirdParty := true,
    IsLibrary := true, IsDefaultVersionProject := false }

/-- A one-project graph holding only `purlLessThirdPartyNode`. -/
def purlLessThirdPartyGraph : ProjectGraph :=
  { nodes := fun _ => purlLessThirdPartyNode, GetAllDependencies := fun _ => [],
    GetImmediateDependencies := fun _ => [] }

/-- C6 counterexample: the purl synthesized for a third-party project without
one is `"pkg:generic/<name>@<version>"`, which is not the string
`"generic/<name>@<version>"` stated by the claim. -/
theorem C6_purl_scheme_counterexample :
    (GetSbomComponentJsonObject purlLessThirdPartyGraph exampleOptions 0).map
        (fun r => r.component.purl) = .ok (some "pkg:generic/LibFoo@2.1") ∧
      "pkg:generic/LibFoo@2.1" ≠ "generic/LibFoo@2.1" :=
  ⟨rfl, by decide⟩

/-- C6 (amended): a purl is synthesized only for a third-party project with no
explicit and no inherited purl, and its value is
`"pkg:generic/" ++ name ++ "@" ++ resolved version` (with the `pkg:` scheme
prefix); a first-party project without a purl gets no purl field at all; an
explicit or inherited purl is kept verbatim. -/
theorem C6_purl_synthesis (g : ProjectGraph) (opts : Options) (p : Nat)
    (r : ResolveResult) (h : GetSbomComponentJsonObject g opts p = .ok r) :
    ((g.nodes p).IsThirdParty = true →
      (g.nodes p).sbom_package_url = none →
      (∀ q, inheritedVersionProject g p = some q → (g.nodes q).sbom_package_url = none) →
      r.component.purl =
        some ("pkg:generic/" ++ (g.nodes p).Name ++ "@" ++ r.component.version)) ∧
    ((g.nodes p).IsThirdParty = false →
      (g.nodes p).sbom_package_url = none →
      (∀ q, inheritedVersionProject g p = some q → (g.nodes q).sbom_package_url = none) →
      r.component.purl = none) ∧
    (∀ u, (g.nodes p).sbom_package_url = some u → r.component.purl = some u) ∧
    (∀ q u, (g.nodes p).sbom_package_url = none →
      inheritedVersionProject g p = some q → (g.nodes q).sbom_package_url = some u →
      r.component.purl = some u) := by
  obtain (⟨q, rest, hd, hdeps, hr⟩ | ⟨hd, hr⟩) := resolve_ok_shape h
  · have hinh : inheritedVersionProject g p = some q := by
      simp [inheritedVersionProject, hd, hdeps]
    rcases hvp : resolveVersionNumber opts (g.nodes p) (some (g.nodes q)) with ⟨vn, vw⟩
    rcases hlp : resolveLicenseName (g.nodes p) (some (g.nodes q)) with ⟨ln, lw⟩
    rcases hpp : resolvePackageUrl (g.nodes p) (some (g.nodes q)) vn with ⟨pu, pw⟩
    subst hr
    rw [Resolved_eq hvp hlp hpp]
    refine ⟨?_, ?_, ?_, ?_⟩
    · intro ht hu0 hiu
      have hno : ∀ q', (some (g.nodes q) : Option ProjectNode) = some q' →
          q'.sbom_package_url = none :=
        fun q' hq' => by injection hq' with h2; rw [← h2]; exact hiu q hinh
      have hmiss := resolvePackageUrl_missing vn hu0 hno
      rw [ht, hpp] at hmiss
      simp at hmiss
      exact hmiss.1
    · intro ht hu0 hiu
      have hno : ∀ q', (some (g.nodes q) : Option ProjectNode) = some q' →
          q'.sbom_package_url = none :=
        fun q' hq' => by injection hq' with h2; rw [← h2]; exact hiu q hinh
      have hmiss := resolvePackageUrl_missing vn hu0 hno
      rw [ht, hpp] at hmiss
      simp at hmiss
      exact hmiss.1
    · intro u hu
      have hprov := resolvePackageUrl_provided (some (g.nodes q)) vn hu
      rw [hpp] at hprov
      simp at hprov
      exact hprov.1
    · intro q' u hu0 hq' hqu
      have hq'' : q' = q := by
        rw [hinh] at hq'
        exact (Option.some.inj hq').symm
      subst hq''
      have hinhl := resolvePackageUrl_inherited vn hu0 hqu
      rw [hpp] at hinhl
      simp at hinhl
      exact hinhl.1
  · rcases hvp : resolveVersionNumber opts (g.nodes p) none with ⟨vn, vw⟩
    rcases hlp : resolveLicenseName (g.nodes p) none with ⟨ln, lw⟩
    rcases hpp : resolvePackageUrl (g.nodes p) none vn with ⟨pu, pw⟩
    subst hr
    rw [Resolved_eq hvp hlp hpp]
    have hinh : inheritedVersionProject g p = none := by
      simp [inheritedVersionProject, hd]
    refine ⟨?_, ?_, ?_, ?_⟩
    · intro ht hu0 _
      have hno : ∀ q', (none : Option ProjectNode) = some q' →
          q'.sbom_package_url = none := fun q' hq' => Option.noConfusion hq'
      have hmiss := resolvePackageUrl_missing vn hu0 hno
      rw [ht, hpp] at hmiss
      simp at hmiss
      exact hmiss.1
    · intro ht hu0 _
      have hno : ∀ q', (none : Option ProjectNode) = some q' →
          q'.sbom_package_url = none := fun q' hq' => Option.noConfusion hq'
      have hmiss := resolvePackageUrl_missing vn hu0 hno
      rw [ht, hpp] at hmiss
      simp at hmiss
      exact hmiss.1
    · intro u hu
      have hprov := resolvePackageUrl_provided none vn hu
      rw [hpp] at hprov
      simp at hprov
      exact hprov.1
    · intro q' u _ hq' _
      rw [hinh] at hq'
      exact Option.noConfusion hq'

/-- Witness for the amended C6: a first-party project with no purl yields a
component whose purl field is absent. -/
def firstPartyBareNode : ProjectNode :=
  { Name := "AppBare", version_number := none, license_name := none,
    sbom_package_url := none, sbom_unique_id := none, IsThirdParty := false,
    IsLibrary := false, IsDefaultVersionProject := false }

/-- A one-project graph holding only `firstPartyBareNode`. -/
def firstPartyBareGraph : ProjectGraph :=
  { nodes := fun _ => firstPartyBareNode, GetAllDependencies := fun _ => [],
    GetImmediateDependencies := fun _ => [] }

/-- Witness for C6: the first-party project's component omits the purl field. -/
theorem C6_purl_synthesis_witness :
    (GetSbomComponentJsonObjectResolved firstPartyBareGraph exampleOptions 0
        none none).component.purl = none :=
  (C6_purl_synthesis firstPartyBareGraph exampleOptions 0
      (GetSbomComponentJsonObjectResolved firstPartyBareGraph exampleOptions 0 none none)
      rfl).2.1 rfl rfl (fun _ hq => Option.noConfusion hq)

/-- C7: a default-version project with no explicit version, license, or purl,
referencing exactly one project that has all three, resolves to a component
whose version, license name, and purl exactly equal the referenced project's. -/
theorem C7_default_version_inheritance (g : ProjectGraph) (opts : Options)
    (p q : Nat) (vv ll uu : String)
    (hd : (g.nodes p).IsDefaultVersionProject = true)
    (hdeps : g.GetImmediateDependencies p = [q])
    (hv : (g.nodes p).version_number = none)
    (hl : (g.nodes p).license_name = none)
    (hu : (g.nodes p).sbom_package_url = none)
    (hqv : (g.nodes q).version_number = some vv)
    (hql : (g.nodes q).license_name = some ll)
    (hqu : (g.nodes q).sbom_package_url = some uu) :
    ∃ r, GetSbomComponentJsonObject g opts p = .ok r ∧
      r.component.version = vv ∧ r.component.licenseName = ll ∧
      r.component.purl = some uu := by
  refine ⟨_, resolve_default hd hdeps, ?_, ?_, ?_⟩ <;>
    rw [Resolved_eq (resolveVersionNumber_inherited hv hqv)
      (resolveLicenseName_inherited hl hql)
      (resolvePackageUrl_inherited vv hu hqu)]

/-- The default-version project used by the C7 witness. -/
def defaultVersionNode : ProjectNode :=
  { Name := "LibDefault", version_number := none, license_name := none,
    sbom_package_url := none, sbom_unique_id := none, IsThirdParty := true,
    IsLibrary := true, IsDefaultVersionProject := true }

/-- The fully versioned project the C7 witness inherits from. -/
def versionedNode : ProjectNode :=
  { Name := "LibV3", version_number := some "3.0", license_name := some "Apache-2.0",
    sbom_package_url := some "pkg:pypi/libv3@3.0", sbom_unique_id := none,
    IsThirdParty := true, IsLibrary := true, IsDefaultVersionProject := false }

/-- A graph whose project 0 is the default-version pass-through for project 1. -/
def defaultVersionGraph : ProjectGraph :=
  { nodes := fun n => if n = 0 then defaultVersionNode else versionedNode,
    GetAllDependencies := fun n => if n = 0 then [1] else [],
    GetImmediateDependencies := fun n => if n = 0 then [1] else [] }

/-- Witness for C7: the concrete default-version project inherits version,
license, and purl from the project it references. -/
theorem C7_default_version_inheritance_witness :
    ∃ r, GetSbomComponentJsonObject defaultVersionGraph exampleOptions 0 = .ok r ∧
      r.component.version = "3.0" ∧ r.component.licenseName = "Apache-2.0" ∧
      r.component.purl = some "pkg:pypi/libv3@3.0" :=
  C7_default_version_inheritance defaultVersionGraph exampleOptions 0 1
    "3.0" "Apache-2.0" "pkg:pypi/libv3@3.0" rfl rfl rfl rfl rfl rfl rfl rfl

lemma Resolved_immAfter (g : ProjectGraph) (opts : Options) (p : Nat)
    (inh : Option ProjectNode) (ia : Option (List Nat)) :
    (GetSbomComponentJsonObjectResolved g opts p inh ia).immediateDependenciesAfter
      = ia := by
  rcases hvp : resolveVersionNumber opts (g.nodes p) inh with ⟨vn, vw⟩
  rcases hlp : resolveLicenseName (g.nodes p) inh with ⟨ln, lw⟩
  rcases hpp : resolvePackageUrl (g.nodes p) inh vn with ⟨pu, pw⟩
  rw [Resolved_eq hvp hlp hpp]

/-- A default-version pass-through project with one immediate dependency, used
to exhibit the `pop()` mutation of the oracle's returned collection. -/
def popDefaultNode : ProjectNode :=
  { Name := "DefaultPop", version_number := none, license_name := none,
    sbom_package_url := none, sbom_unique_id := none, IsThirdParty := false,
    IsLibrary := true, IsDefaultVersionProject := true }

/-- The project `popDefaultNode` references. -/
def popTargetNode : ProjectNode :=
  { Name := "PopTarget", version_number := some "1.2", license_name := some "MIT",
    sbom_package_url := some "pkg:pypi/poptarget@1.2", sbom_unique_id := none,
    IsThirdParty := true, IsLibrary := true, IsDefaultVersionProject := false }

/-- A graph whose project 0 is a default-version project whose
immediate-dependencies result is the one-element collection `[1]`. -/
def popGraph : ProjectGraph :=
  { nodes := fun n => if n = 0 then popDefaultNode else popTargetNode,
    GetAllDependencies := fun n => if n = 0 then [1] else [],
    GetImmediateDependencies := fun n => if n = 0 then [1] else [] }

/-- C9 counterexample: resolving the default-version project 0 ends with the
oracle-returned immediate-dependencies collection holding `[]` — `pop()`
removed the element `1` from the collection the oracle returned, so the
resolver does not leave every returned collection unmodified. -/
theorem C9_resolver_mutates_returned_collection :
    (GetSbomComponentJsonObject popGraph exampleOptions 0).map
        (fun r => r.immediateDependenciesAfter) = .ok (some []) ∧
      popGraph.GetImmediateDependencies 0 = [1] ∧
      (some ([] : List Nat)) ≠ some [1] :=
  ⟨rfl, rfl, by decide⟩

/-- C9 (amended): the resolver reads but never writes the graph value itself
(the embedding passes it unchanged), obtains an oracle collection only in the
default-version path, and there removes exactly the popped element from the
returned immediate-dependencies collection, leaving its remainder. -/
theorem C9_resolver_collection_effects (g : ProjectGraph) (opts : Options) (p : Nat)
    (r : ResolveResult) (h : GetSbomComponentJsonObject g opts p = .ok r) :
    ((g.nodes p).IsDefaultVersionProject = false →
      r.immediateDependenciesAfter = none) ∧
    (∀ q rest, (g.nodes p).IsDefaultVersionProject = true →
      g.GetImmediateDependencies p = q :: rest →
      r.immediateDependenciesAfter = some rest) := by
  obtain (⟨q, rest, hd, hdeps, hr⟩ | ⟨hd, hr⟩) := resolve_ok_shape h
  · constructor
    · intro hnd
      rw [hd] at hnd
      exact Bool.noConfusion hnd
    · intro q' rest' _ hdeps'
      rw [hdeps] at hdeps'
      injection hdeps' with h1 h2
      subst h2
      rw [hr, Resolved_immAfter]
  · constructor
    · intro _
      rw [hr, Resolved_immAfter]
    · intro q' rest' hdt _
      rw [hd] at hdt
      exact Bool.noConfusion hdt

/-- Witness for the amended C9: on the concrete pop graph, the collection ends
as the tail `[]` of the returned `[1]`. -/
theorem C9_resolver_collection_effects_witness :
    (GetSbomComponentJsonObjectResolved popGraph exampleOptions 0
        (some (popGraph.nodes 1)) (some [])).immediateDependenciesAfter = some [] :=
  (C9_resolver_collection_effects popGraph exampleOptions 0
      (GetSbomComponentJsonObjectResolved popGraph exampleOptions 0
        (some (popGraph.nodes 1)) (some []))
      rfl).2 1 [] rfl rfl

lemma string_contains_iff {l : List String} {a : String} :
    l.contains a = true ↔ a ∈ l := by
  simp [List.contains]

lemma collectIds_append {ys xs : List JsonComponent} {is js : List String}
    (hx : collectIds xs = .ok is) (hy : collectIds ys = .ok js) :
    collectIds (xs ++ ys) = .ok (is ++ js) := by
  induction xs generalizing is with
  | nil =>
    simp only [collectIds, Except.ok.injEq] at hx
    subst hx
    simpa using hy
  | cons c rest ih =>
    cases hb : c.bomRef with
    | none => rw [collectIds, hb] at hx; exact absurd hx (by simp)
    | some i =>
      rw [collectIds, hb] at hx
      cases ht : collectIds rest with
      | error e => rw [ht] at hx; exact absurd hx (by simp)
      | ok tail =>
        rw [ht] at hx
        simp only [Except.ok.injEq] at hx
        subst hx
        rw [List.cons_append, collectIds, hb, ih ht]
        rfl

lemma collectIds_of_bomRefs {newC : List JsonComponent} {newI : List String}
    (h : newC.map JsonComponent.bomRef = newI.map some) :
    collectIds newC = .ok newI := by
  induction newC generalizing newI with
  | nil =>
    cases newI with
    | nil => rfl
    | cons i t => simp at h
  | cons c rest ih =>
    cases newI with
    | nil => simp at h
    | cons i t =>
      simp only [List.map_cons, List.cons.injEq] at h
      rw [collectIds, h.1, ih h.2]

lemma addFragComponents_mono {fs comps ids acc comps' ids' acc'} :
    addFragComponents fs comps ids acc = .ok (comps', ids', acc') →
    ∀ x ∈ ids, x ∈ ids' := by
  induction fs generalizing comps ids acc with
  | nil =>
    intro h
    simp only [addFragComponents, Except.ok.injEq, Prod.mk.injEq] at h
    obtain ⟨-, h2, -⟩ := h
    subst h2
    exact fun x hx => hx
  | cons c rest ih =>
    intro h
    cases htf : c.type with
    | none => rw [addFragComponents, htf] at h; exact absurd h (by simp)
    | some t =>
      rw [addFragComponents, htf] at h
      simp only at h
      by_cases hfile : (t = "file")
      · rw [if_pos hfile] at h
        exact ih h
      · rw [if_neg hfile] at h
        cases hbr : c.bomRef with
        | none => rw [hbr] at h; exact absurd h (by simp)
        | some cid =>
          rw [hbr] at h
          simp only at h
          by_cases hc : (ids.contains cid = true)
          · rw [if_pos hc] at h
            exact ih h
          · rw [if_neg hc] at h
            intro x hx
            exact ih h x (List.mem_append_left _ hx)

lemma addFragComponents_chars {fs comps ids acc comps' ids' acc'} :
    addFragComponents fs comps ids acc = .ok (comps', ids', acc') →
    ∃ newC newI, comps' = comps ++ newC ∧ ids' = ids ++ newI ∧ acc' = acc ++ newI ∧
      newC.map JsonComponent.bomRef = newI.map some ∧
      (∀ c ∈ newC, c ∈ fs ∧ c.type ≠ some "file") := by
  induction fs generalizing comps ids acc with
  | nil =>
    intro h
    simp only [addFragComponents, Except.ok.injEq, Prod.mk.injEq] at h
    obtain ⟨h1, h2, h3⟩ := h
    subst h1; subst h2; subst h3
    exact ⟨[], [], by simp, by simp, by simp, rfl, by simp⟩
  | cons c rest ih =>
    intro h
    cases htf : c.type with
    | none => rw [addFragComponents, htf] at h; exact absurd h (by simp)
    | some t =>
      rw [addFragComponents, htf] at h
      simp only at h
      by_cases hfile : (t = "file")
      · rw [if_pos hfile] at h
        obtain ⟨newC, newI, h1, h2, h3, h4, h5⟩ := ih h
        exact ⟨newC, newI, h1, h2, h3, h4,
          fun c' hc' => ⟨List.mem_cons_of_mem c (h5 c' hc').1, (h5 c' hc').2⟩⟩
      · rw [if_neg hfile] at h
        cases hbr : c.bomRef with
        | none => rw [hbr] at h; exact absurd h (by simp)
        | some cid =>
          rw [hbr] at h
          simp only at h
          by_cases hc : (ids.contains cid = true)
          · rw [if_pos hc] at h
            obtain ⟨newC, newI, h1, h2, h3, h4, h5⟩ := ih h
            exact ⟨newC, newI, h1, h2, h3, h4,
              fun c' hc' => ⟨List.mem_cons_of_mem c (h5 c' hc').1, (h5 c' hc').2⟩⟩
          · rw [if_neg hc] at h
            obtain ⟨newC, newI, h1, h2, h3, h4, h5⟩ := ih h
            refine ⟨c :: newC, cid :: newI, by simp [h1], by simp [h2],
              by simp [h3], by simp [hbr, h4], ?_⟩
            intro c' hc'
            rcases List.mem_cons.mp hc' with hceq | hc''
            · subst hceq
              refine ⟨List.mem_cons_self c' rest, ?_⟩
              rw [htf]
              intro hcontra
              exact hfile (Option.some.inj hcontra)
            · exact ⟨List.mem_cons_of_mem c (h5 c' hc'').1, (h5 c' hc'').2⟩

lemma addFragComponents_skip_all {fs comps ids acc comps' ids' acc'} :
    addFragComponents fs comps ids acc = .ok (comps', ids', acc') →
    ∀ {ids2 : List String}, (∀ x ∈ ids', x ∈ ids2) →
    ∀ comps2 acc2, addFragComponents fs comps2 ids2 acc2 = .ok (comps2, ids2, acc2) := by
  induction fs generalizing comps ids acc with
  | nil => intro _ ids2 _ comps2 acc2; rfl
  | cons c rest ih =>
    intro h ids2 hsub comps2 acc2
    cases htf : c.type with
    | none => rw [addFragComponents, htf] at h; exact absurd h (by simp)
    | some t =>
      rw [addFragComponents, htf] at h
      simp only at h
      by_cases hfile : (t = "file")
      · rw [if_pos hfile] at h
        rw [addFragComponents, htf]
        simp only
        rw [if_pos hfile]
        exact ih h hsub comps2 acc2
      · rw [if_neg hfile] at h
        cases hbr : c.bomRef with
        | none => rw [hbr] at h; exact absurd h (by simp)
        | some cid =>
          rw [hbr] at h
          simp only at h
          by_cases hc : (ids.contains cid = true)
          · rw [if_pos hc] at h
            have hcid : cid ∈ ids2 :=
              hsub cid (addFragComponents_mono h cid (string_contains_iff.mp hc))
            rw [addFragComponents, htf]
            simp only
            rw [if_neg hfile, hbr]
            simp only
            rw [if_pos (string_contains_iff.mpr hcid)]
            exact ih h hsub comps2 acc2
          · rw [if_neg hc] at h
            have hcid : cid ∈ ids2 :=
              hsub cid (addFragComponents_mono h cid (List.mem_append_right _ (by simp)))
            rw [addFragComponents, htf]
            simp only
            rw [if_neg hfile, hbr]
            simp only
            rw [if_pos (string_contains_iff.mpr hcid)]
            exact ih h hsub comps2 acc2

lemma updateLastEdge_map_ref (edges : List JsonEdge) (oid : String)
    (nd : List String) :
    (updateLastEdge edges oid nd).map JsonEdge.ref = edges.map JsonEdge.ref := by
  induction edges with
  | nil => rfl
  | cons e rest ih =>
    rw [updateLastEdge]
    by_cases ha : (rest.any (fun e2 => e2.ref == some oid) = true)
    · rw [if_pos ha]
      simp [ih]
    · rw [if_neg ha]
      by_cases hm : ((e.ref == some oid) = true)
      · rw [if_pos hm]
        simp
      · rw [if_neg hm]

lemma buildEdgeLookup_any {edges : List JsonEdge} {lkE : List (String × JsonEdge)}
    (h : buildEdgeLookup edges = .ok lkE) (oid : String) :
    (dictFind lkE oid).isSome = edges.any (fun e2 => e2.ref == some oid) := by
  induction edges generalizing lkE with
  | nil =>
    simp only [buildEdgeLookup, Except.ok.injEq] at h
    subst h
    rfl
  | cons e rest ih =>
    cases hr : e.ref with
    | none => rw [buildEdgeLookup, hr] at h; exact absurd h (by simp)
    | some r =>
      rw [buildEdgeLookup, hr] at h
      cases ht : buildEdgeLookup rest with
      | error er => rw [ht] at h; exact absurd h (by simp)
      | ok tail =>
        rw [ht] at h
        simp only [Except.ok.injEq] at h
        subst h
        rw [List.any_cons]
        rw [dictFind]
        cases hf : dictFind tail oid with
        | some w =>
          have := ih ht
          rw [hf] at this
          simp at this ⊢
          exact Or.inr this
        | none =>
          have := ih ht
          rw [hf] at this
          simp at this
          by_cases hro : (r = oid)
          · simp [hro, hr, this]
          · simp [hro, hr, this]
            exact this

lemma dictFind_mem {edges : List JsonEdge} {lkE : List (String × JsonEdge)}
    {k : String} {e : JsonEdge}
    (h : buildEdgeLookup edges = .ok lkE) (hf : dictFind lkE k = some e) :
    e ∈ edges ∧ e.ref = some k := by
  induction edges generalizing lkE with
  | nil =>
    simp only [buildEdgeLookup, Except.ok.injEq] at h
    subst h
    exact absurd hf (by simp [dictFind])
  | cons e0 rest ih =>
    cases hr : e0.ref with
    | none => rw [buildEdgeLookup, hr] at h; exact absurd h (by simp)
    | some r =>
      rw [buildEdgeLookup, hr] at h
      cases ht : buildEdgeLookup rest with
      | error er => rw [ht] at h; exact absurd h (by simp)
      | ok tail =>
        rw [ht] at h
        simp only [Except.ok.injEq] at h
        subst h
        rw [dictFind] at hf
        cases hdf : dictFind tail k with
        | some w =>
          rw [hdf] at hf
          obtain ⟨hmem, href⟩ := ih ht (hdf.trans (congrArg some (Option.some.inj hf)))
          exact ⟨List.mem_cons_of_mem e0 hmem, href⟩
        | none =>
          rw [hdf] at hf
          by_cases hrk : (r = k)
          · rw [if_pos hrk] at hf
            have he : e0 = e := Option.some.inj hf
            subst he
            exact ⟨List.mem_cons_self e0 rest, by rw [hr, hrk]⟩
          · rw [if_neg hrk] at hf
            exact Option.noConfusion hf

lemma any_ref_congr {es1 es2 : List JsonEdge}
    (h : es1.map JsonEdge.ref = es2.map JsonEdge.ref) (p : Option String → Bool) :
    (es1.any fun e => p e.ref) = (es2.any fun e => p e.ref) := by
  induction es1 generalizing es2 with
  | nil =>
    cases es2 with
    | nil => rfl
    | cons b u => simp at h
  | cons a t ih =>
    cases es2 with
    | nil => simp at h
    | cons b u =>
      simp only [List.map_cons, List.cons.injEq] at h
      rw [List.any_cons, List.any_cons, h.1, ih h.2]

lemma updateLastEdge_idem (edges : List JsonEdge) (oid : String) (nd : List String) :
    updateLastEdge (updateLastEdge edges oid nd) oid nd =
      updateLastEdge edges oid nd := by
  induction edges with
  | nil => rfl
  | cons e rest ih =>
    by_cases ha : (rest.any (fun e2 => e2.ref == some oid) = true)
    · rw [updateLastEdge, if_pos ha]
      have ha2 : ((updateLastEdge rest oid nd).any fun e2 => e2.ref == some oid) = true := by
        rw [any_ref_congr (updateLastEdge_map_ref rest oid nd) (fun r => r == some oid)]
        exact ha
      rw [updateLastEdge, if_pos ha2, ih]
    · rw [updateLastEdge, if_neg ha]
      by_cases hm : ((e.ref == some oid) = true)
      · rw [if_pos hm]
        rw [updateLastEdge, if_neg ha]
        have hm2 : ((({ e with dependsOn := some nd } : JsonEdge).ref == some oid) = true) := hm
        rw [if_pos hm2]
      · rw [if_neg hm]
        rw [updateLastEdge, if_neg ha, if_neg hm]

lemma updateLastEdge_mem {edges : List JsonEdge} {oid : String} {nd : List String} :
    ∀ e ∈ updateLastEdge edges oid nd,
      e ∈ edges ∨ ∃ e0 ∈ edges, e = { e0 with dependsOn := some nd } := by
  induction edges with
  | nil => intro e he; exact absurd he (List.not_mem_nil e)
  | cons e0 rest ih =>
    intro e he
    rw [updateLastEdge] at he
    by_cases ha : (rest.any (fun e2 => e2.ref == some oid) = true)
    · rw [if_pos ha] at he
      rcases List.mem_cons.mp he with hee | hee
      · left; rw [hee]; exact List.mem_cons_self e0 rest
      · rcases ih e hee with h1 | ⟨e1, he1, he2⟩
        · left; exact List.mem_cons_of_mem e0 h1
        · right; exact ⟨e1, List.mem_cons_of_mem e0 he1, he2⟩
    · rw [if_neg ha] at he
      by_cases hm : ((e0.ref == some oid) = true)
      · rw [if_pos hm] at he
        rcases List.mem_cons.mp he with hee | hee
        · right; exact ⟨e0, List.mem_cons_self e0 rest, hee⟩
        · left; exact List.mem_cons_of_mem e0 hee
      · rw [if_neg hm] at he
        left; exact he

lemma buildEdgeLookup_update {edges : List JsonEdge} {lkE : List (String × JsonEdge)}
    {oid : String} {e0 : JsonEdge} (nd : List String)
    (h : buildEdgeLookup edges = .ok lkE) (hf : dictFind lkE oid = some e0) :
    ∃ lk1, buildEdgeLookup (updateLastEdge edges oid nd) = .ok lk1 ∧
      dictFind lk1 oid = some { e0 with dependsOn := some nd } := by
  induction edges generalizing lkE with
  | nil =>
    simp only [buildEdgeLookup, Except.ok.injEq] at h
    subst h
    exact absurd hf (by simp [dictFind])
  | cons e rest ih =>
    cases hr : e.ref with
    | none => rw [buildEdgeLookup, hr] at h; exact absurd h (by simp)
    | some r =>
      rw [buildEdgeLookup, hr] at h
      cases ht : buildEdgeLookup rest with
      | error er => rw [ht] at h; exact absurd h (by simp)
      | ok tail =>
        rw [ht] at h
        simp only [Except.ok.injEq] at h
        subst h
        rw [dictFind] at hf
        cases hdf : dictFind tail oid with
        | some w =>
          rw [hdf] at hf
          have hw : w = e0 := Option.some.inj hf
          subst hw
          have hany : (rest.any fun e2 => e2.ref == some oid) = true := by
            have h2 := buildEdgeLookup_any ht oid
            rw [hdf] at h2
            simpa using h2.symm
          obtain ⟨lk1, hbl, hdf1⟩ := ih ht hdf
          rw [updateLastEdge, if_pos hany]
          refine ⟨(r, e) :: lk1, ?_, ?_⟩
          · rw [buildEdgeLookup, hr, hbl]
          · rw [dictFind, hdf1]
        | none =>
          rw [hdf] at hf
          by_cases hrk : (r = oid)
          · rw [if_pos hrk] at hf
            have he : e = e0 := Option.some.inj hf
            subst he
            have hanyf : (rest.any fun e2 => e2.ref == some oid) = false := by
              have h2 := buildEdgeLookup_any ht oid
              rw [hdf] at h2
              simpa using h2.symm
            have hm : ((e.ref == some oid) = true) := by
              rw [hr, hrk]
              simp
            rw [updateLastEdge, if_neg (by rw [hanyf]; simp), if_pos hm]
            have hr2 : ({ e with dependsOn := some nd } : JsonEdge).ref = some r := hr
            refine ⟨(r, { e with dependsOn := some nd }) :: tail, ?_, ?_⟩
            · rw [buildEdgeLookup, hr2, ht]
            · rw [dictFind, hdf, if_pos hrk]
          · rw [if_neg hrk] at hf
            exact Option.noConfusion hf

lemma appendNewDeps_mem {deps added : List String} {x : String} :
    x ∈ appendNewDeps deps added → x ∈ deps ∨ x ∈ added := by
  unfold appendNewDeps
  induction added generalizing deps with
  | nil => intro h; exact Or.inl h
  | cons u rest ih =>
    intro h
    rw [List.foldl_cons] at h
    rcases ih h with h1 | h1
    · by_cases hc : (deps.contains u = true)
      · rw [if_pos hc] at h1
        exact Or.inl h1
      · rw [if_neg hc] at h1
        rcases List.mem_append.mp h1 with h2 | h2
        · exact Or.inl h2
        · right
          simp only [List.mem_singleton] at h2
          rw [h2]
          exact List.mem_cons_self u rest
    · exact Or.inr (List.mem_cons_of_mem u h1)

lemma merge_ok_inversion {project : Nat} {projectName : String}
    {lookup : List (Nat × String)} {fragment : Except PyError JsonFragment}
    {target : Except PyError JsonDocument} {writeResult : Option PyError}
    {log : List (LogLevel × String)} {out : Except PyError JsonDocument}
    (h : MergeDependencyMetadataSbomIntoCustomSoftwareSbom project projectName
      lookup fragment target writeResult = (true, log, out)) :
    writeResult = none ∧ ∃ d, mergeBody project lookup fragment target = .ok d ∧
      out = .ok d ∧ log = [(LogLevel.info, mergeSuccessMessage projectName)] := by
  unfold MergeDependencyMetadataSbomIntoCustomSoftwareSbom at h
  cases hb : mergeBody project lookup fragment target with
  | error e =>
    rw [hb] at h
    simp at h
  | ok d =>
    rw [hb] at h
    cases writeResult with
    | some e => simp at h
    | none =>
      simp only [Prod.mk.injEq] at h
      exact ⟨rfl, d, rfl, h.2.2.symm, h.2.1.symm⟩

lemma mergeBody_ok_inversion {project : Nat} {lookup : List (Nat × String)}
    {frag : JsonFragment} {doc d : JsonDocument}
    (h : mergeBody project lookup (.ok frag) (.ok doc) = .ok d) :
    ∃ fcs ids0 newComps idsF added oid lkE e0 old,
      frag.components = some fcs ∧
      collectIds doc.components = .ok ids0 ∧
      addFragComponents fcs doc.components ids0 [] = .ok (newComps, idsF, added) ∧
      List.lookup project lookup = some oid ∧
      buildEdgeLookup doc.dependencies = .ok lkE ∧
      dictFind lkE oid = some e0 ∧
      e0.dependsOn = some old ∧
      d = { doc with
            components := newComps,
            dependencies := updateLastEdge doc.dependencies oid
              (appendNewDeps old added) } := by
  unfold mergeBody at h
  simp only at h
  cases hfc : frag.components with
  | none => rw [hfc] at h; exact absurd h (by simp)
  | some fcs =>
  rw [hfc] at h
  simp only at h
  cases hci : collectIds doc.components with
  | error e => rw [hci] at h; exact absurd h (by simp)
  | ok ids0 =>
  rw [hci] at h
  simp only at h
  cases haf : addFragComponents fcs doc.components ids0 [] with
  | error e => rw [haf] at h; exact absurd h (by simp)
  | ok triple =>
  obtain ⟨newComps, idsF, added⟩ := triple
  rw [haf] at h
  simp only at h
  cases hlu : List.lookup project lookup with
  | none => rw [hlu] at h; exact absurd h (by simp)
  | some oid =>
  rw [hlu] at h
  simp only at h
  cases hbe : buildEdgeLookup doc.dependencies with
  | error e => rw [hbe] at h; exact absurd h (by simp)
  | ok lkE =>
  rw [hbe] at h
  simp only at h
  cases hdf : dictFind lkE oid with
  | none => rw [hdf] at h; exact absurd h (by simp)
  | some e0 =>
  rw [hdf] at h
  simp only at h
  cases hdo : e0.dependsOn with
  | none => rw [hdo] at h; exact absurd h (by simp)
  | some old =>
  rw [hdo] at h
  simp only [Except.ok.injEq] at h
  exact ⟨fcs, ids0, newComps, idsF, added, oid, lkE, e0, old,
    rfl, rfl, haf, rfl, rfl, hdf, hdo, h.symm⟩

lemma appendNewDeps_nil (deps : List String) : appendNewDeps deps [] = deps := rfl

/-- C3: merging the same fragment document a second time into the target
document it already produced succeeds and leaves the document unchanged — no
component is appended again and no id is appended again to the owning
project's dependsOn (set-like insertion). -/
theorem C3_merge_idempotent (project : Nat) (projectName : String)
    (lookup : List (Nat × String)) (frag : JsonFragment) (doc doc1 : JsonDocument)
    (log : List (LogLevel × String))
    (h : MergeDependencyMetadataSbomIntoCustomSoftwareSbom project projectName lookup
      (.ok frag) (.ok doc) none = (true, log, .ok doc1)) :
    MergeDependencyMetadataSbomIntoCustomSoftwareSbom project projectName lookup
      (.ok frag) (.ok doc1) none =
      (true, [(LogLevel.info, mergeSuccessMessage projectName)], .ok doc1) := by
  obtain ⟨-, d, hbody, hout, -⟩ := merge_ok_inversion h
  have hd : d = doc1 := Except.ok.inj hout.symm
  rw [hd] at hbody
  obtain ⟨fcs, ids0, newComps, idsF, added, oid, lkE, e0, old,
    hfc, hci, haf, hlu, hbe, hdf, hdo, hdoc1⟩ := mergeBody_ok_inversion hbody
  obtain ⟨newC, newI, hcomps, hids, hacc, hmap, -⟩ := addFragComponents_chars haf
  simp only [List.nil_append] at hacc
  subst hacc
  have hC : collectIds newComps = .ok idsF := by
    rw [hcomps, hids]
    exact collectIds_append hci (collectIds_of_bomRefs hmap)
  have hD : addFragComponents fcs newComps idsF [] = .ok (newComps, idsF, []) :=
    addFragComponents_skip_all haf (fun x hx => hx) newComps []
  obtain ⟨lk1, hbe1, hdf1⟩ :=
    buildEdgeLookup_update (appendNewDeps old added) hbe hdf
  have hbody2 : mergeBody project lookup (.ok frag) (.ok doc1) = .ok doc1 := by
    rw [hdoc1]
    unfold mergeBody
    simp only
    rw [hfc]
    simp only
    rw [hC]
    simp only
    rw [hD]
    simp only
    rw [hlu]
    simp only
    rw [hbe1]
    simp only
    rw [hdf1]
    simp only
    rw [appendNewDeps_nil, updateLastEdge_idem]
  unfold MergeDependencyMetadataSbomIntoCustomSoftwareSbom
  rw [hbody2]

/-- The target project's own component inside the concrete merge examples. -/
def rootComponent : JsonComponent :=
  { bomRef := some "Root", type := some "application", name := some "Root",
    version := some "1.0", licenseName := some "Your Organization Proprietary",
    purl := none }

/-- A package component inside the concrete fragment. -/
def pkgAComponent : JsonComponent :=
  { bomRef := some "pkgA", type := some "library", name := some "pkgA",
    version := some "0.1", licenseName := some "MIT", purl := some "pkg:npm/pkga@0.1" }

/-- A `type = "file"` scan-artifact component inside the concrete fragment. -/
def lockfileComponent : JsonComponent :=
  { bomRef := some "lockfile", type := some "file", name := some "lockfile",
    version := none, licenseName := none, purl := none }

/-- A minimal assembled target document containing only the root project. -/
def mergeDoc : JsonDocument :=
  { bomFormat := "CycloneDX", specVersion := "1.6", version := 1, timestamp := "t",
    toolName := "Waf SBOM Command", toolVersion := "1.0.0",
    components := [rootComponent],
    dependencies := [{ ref := some "Root", dependsOn := some [] }] }

/-- A concrete fragment document with one package and one file component. -/
def mergeFrag : JsonFragment :=
  { components := some [pkgAComponent, lockfileComponent] }

/-- The identifier map threaded into the concrete merges. -/
def mergeLookup : List (Nat × String) := [(0, "Root")]

/-- The result of merging `mergeFrag` into `mergeDoc` once. -/
def mergedDoc : JsonDocument :=
  { bomFormat := "CycloneDX", specVersion := "1.6", version := 1, timestamp := "t",
    toolName := "Waf SBOM Command", toolVersion := "1.0.0",
    components := [rootComponent, pkgAComponent],
    dependencies := [{ ref := some "Root", dependsOn := some ["pkgA"] }] }

/-- Witness for C3: merging the concrete fragment into the already-merged
document changes nothing. -/
theorem C3_merge_idempotent_witness :
    MergeDependencyMetadataSbomIntoCustomSoftwareSbom 0 "Root" mergeLookup
      (.ok mergeFrag) (.ok mergedDoc) none =
      (true, [(LogLevel.info, mergeSuccessMessage "Root")], .ok mergedDoc) :=
  C3_merge_idempotent 0 "Root" mergeLookup mergeFrag mergeDoc mergedDoc
    [(LogLevel.info, mergeSuccessMessage "Root")] (by rfl)

lemma updateLastEdge_found {edges : List JsonEdge} {lkE : List (String × JsonEdge)}
    {oid : String} {e0 : JsonEdge} (nd : List String)
    (hbe : buildEdgeLookup edges = .ok lkE) (hdf : dictFind lkE oid = some e0) :
    ∀ e ∈ updateLastEdge edges oid nd,
      e ∈ edges ∨ e = { e0 with dependsOn := some nd } := by
  induction edges generalizing lkE with
  | nil =>
    simp only [buildEdgeLookup, Except.ok.injEq] at hbe
    subst hbe
    exact absurd hdf (by simp [dictFind])
  | cons e1 rest ih =>
    cases hr : e1.ref with
    | none => rw [buildEdgeLookup, hr] at hbe; exact absurd hbe (by simp)
    | some r =>
      rw [buildEdgeLookup, hr] at hbe
      cases ht : buildEdgeLookup rest with
      | error er => rw [ht] at hbe; exact absurd hbe (by simp)
      | ok tail =>
        rw [ht] at hbe
        simp only [Except.ok.injEq] at hbe
        subst hbe
        rw [dictFind] at hdf
        cases hdfr : dictFind tail oid with
        | some w =>
          rw [hdfr] at hdf
          have hw : w = e0 := Option.some.inj hdf
          subst hw
          have hany : (rest.any fun e2 => e2.ref == some oid) = true := by
            have h2 := buildEdgeLookup_any ht oid
            rw [hdfr] at h2
            simpa using h2.symm
          intro e he
          rw [updateLastEdge, if_pos hany] at he
          rcases List.mem_cons.mp he with hee | hee
          · left; rw [hee]; exact List.mem_cons_self e1 rest
          · rcases ih ht hdfr e hee with h1 | h1
            · left; exact List.mem_cons_of_mem e1 h1
            · right; exact h1
        | none =>
          rw [hdfr] at hdf
          by_cases hrk : (r = oid)
          · rw [if_pos hrk] at hdf
            have he1 : e1 = e0 := Option.some.inj hdf
            subst he1
            have hanyf : (rest.any fun e2 => e2.ref == some oid) = false := by
              have h2 := buildEdgeLookup_any ht oid
              rw [hdfr] at h2
              simpa using h2.symm
            have hm : ((e1.ref == some oid) = true) := by
              rw [hr, hrk]
              simp
            intro e he
            rw [updateLastEdge, if_neg (by rw [hanyf]; simp), if_pos hm] at he
            rcases List.mem_cons.mp he with hee | hee
            · right; exact hee
            · left; exact List.mem_cons_of_mem e1 hee
          · rw [if_neg hrk] at hdf
            exact absurd hdf (by simp)

/-- C4: in a successful merge, every component appended to the target document
is a non-file fragment component, so a `type = "file"` fragment component never
gets appended to the document's components, and every id newly appended to any
dependency entry's dependsOn is the id of such a non-file appended component. -/
theorem C4_file_components_discarded (project : Nat) (projectName : String)
    (lookup : List (Nat × String)) (frag : JsonFragment) (doc newDoc : JsonDocument)
    (log : List (LogLevel × String)) (fcs : List JsonComponent)
    (h : MergeDependencyMetadataSbomIntoCustomSoftwareSbom project projectName lookup
      (.ok frag) (.ok doc) none = (true, log, .ok newDoc))
    (hfcs : frag.components = some fcs) :
    ∃ (appended : List JsonComponent) (addedIds : List String),
      newDoc.components = doc.components ++ appended ∧
      appended.map JsonComponent.bomRef = addedIds.map some ∧
      (∀ c ∈ appended, c ∈ fcs ∧ c.type ≠ some "file") ∧
      (∀ c ∈ newDoc.components, c ∈ doc.components ∨
        (c ∈ fcs ∧ c.type ≠ some "file")) ∧
      (∀ e ∈ newDoc.dependencies, e ∈ doc.dependencies ∨
        ∃ e0 ∈ doc.dependencies, ∃ old nds, e0.dependsOn = some old ∧
          e = { e0 with dependsOn := some nds } ∧
          ∀ x ∈ nds, x ∈ old ∨ x ∈ addedIds) := by
  obtain ⟨-, d, hbody, hout, -⟩ := merge_ok_inversion h
  have hd : d = newDoc := Except.ok.inj hout.symm
  rw [hd] at hbody
  obtain ⟨fcs', ids0, newComps, idsF, added, oid, lkE, e0, old,
    hfc, hci, haf, hlu, hbe, hdf, hdo, hdoc1⟩ := mergeBody_ok_inversion hbody
  have hfcs' : fcs' = fcs := by
    rw [hfcs] at hfc
    exact (Option.some.inj hfc).symm
  subst hfcs'
  obtain ⟨newC, newI, hcomps, hids, hacc, hmap, hfrom⟩ := addFragComponents_chars haf
  simp only [List.nil_append] at hacc
  subst hacc
  refine ⟨newC, added, ?_, hmap, hfrom, ?_, ?_⟩
  · rw [hdoc1]
    exact hcomps
  · intro c hc
    rw [hdoc1] at hc
    simp only at hc
    rw [hcomps] at hc
    rcases List.mem_append.mp hc with h1 | h1
    · exact Or.inl h1
    · exact Or.inr (hfrom c h1)
  · intro e he
    rw [hdoc1] at he
    simp only at he
    rcases updateLastEdge_found (appendNewDeps old added) hbe hdf e he with h1 | h1
    · exact Or.inl h1
    · right
      refine ⟨e0, (dictFind_mem hbe hdf).1, old, appendNewDeps old added, hdo, h1, ?_⟩
      intro x hx
      exact appendNewDeps_mem hx

/-- Witness for C4: in the concrete merge, the appended components are exactly
the non-file package component, and only its id reaches the dependsOn lists. -/
theorem C4_file_components_discarded_witness :
    ∃ (appended : List JsonComponent) (addedIds : List String),
      mergedDoc.components = mergeDoc.components ++ appended ∧
      appended.map JsonComponent.bomRef = addedIds.map some ∧
      (∀ c ∈ appended, c ∈ [pkgAComponent, lockfileComponent] ∧
        c.type ≠ some "file") ∧
      (∀ c ∈ mergedDoc.components, c ∈ mergeDoc.components ∨
        (c ∈ [pkgAComponent, lockfileComponent] ∧ c.type ≠ some "file")) ∧
      (∀ e ∈ mergedDoc.dependencies, e ∈ mergeDoc.dependencies ∨
        ∃ e0 ∈ mergeDoc.dependencies, ∃ old nds, e0.dependsOn = some old ∧
          e = { e0 with dependsOn := some nds } ∧
          ∀ x ∈ nds, x ∈ old ∨ x ∈ addedIds) :=
  C4_file_components_discarded 0 "Root" mergeLookup mergeFrag mergeDoc mergedDoc
    [(LogLevel.info, mergeSuccessMessage "Root")]
    [pkgAComponent, lockfileComponent] (by rfl) (by rfl)

/-- C8: the merge engine is total over its inputs: every failure of any step of
the body (unreadable or malformed fragment, missing keys, missing owner
dependency entry) and every write failure is caught and turned into a `false`
return with a single warning naming the owning project and the rendered cause,
while the file content argument is passed through untouched; a fully successful
body followed by a successful write is the only way to return `true`.  No case
propagates an exception: the translated function is a total function into the
result triple. -/
theorem C8_merge_failures_contained (project : Nat) (projectName : String)
    (lookup : List (Nat × String)) (fragment : Except PyError JsonFragment)
    (target : Except PyError JsonDocument) (writeResult : Option PyError) :
    (∀ e, mergeBody project lookup fragment target = .error e →
      MergeDependencyMetadataSbomIntoCustomSoftwareSbom project projectName lookup
        fragment target writeResult =
        (false, [(LogLevel.warn, mergeFailureMessage projectName e)], target)) ∧
    (∀ d e, mergeBody project lookup fragment target = .ok d → writeResult = some e →
      MergeDependencyMetadataSbomIntoCustomSoftwareSbom project projectName lookup
        fragment target writeResult =
        (false, [(LogLevel.warn, mergeFailureMessage projectName e)], target)) ∧
    (∀ d, mergeBody project lookup fragment target = .ok d → writeResult = none →
      MergeDependencyMetadataSbomIntoCustomSoftwareSbom project projectName lookup
        fragment target writeResult =
        (true, [(LogLevel.info, mergeSuccessMessage projectName)], .ok d)) ∧
    (∃ s1 s2, ∀ e, mergeFailureMessage projectName e =
      s1 ++ projectName ++ s2 ++ renderPyError e) := by
  refine ⟨?_, ?_, ?_, ?_⟩
  · intro e he
    unfold MergeDependencyMetadataSbomIntoCustomSoftwareSbom
    rw [he]
  · intro d e hd hw
    unfold MergeDependencyMetadataSbomIntoCustomSoftwareSbom
    rw [hd, hw]
  · intro d hd hw
    unfold MergeDependencyMetadataSbomIntoCustomSoftwareSbom
    rw [hd, hw]
  · exact ⟨"Failed to merge components and dependencies for ",
      " into Custom Software SBOM: ", fun e => rfl⟩

/-- Witness for C8: an unreadable fragment file makes the merge return `false`
with the warning naming the project and the cause, leaving the file alone. -/
theorem C8_merge_failures_contained_witness :
    MergeDependencyMetadataSbomIntoCustomSoftwareSbom 0 "Root" mergeLookup
      (.error (.ioError "read failed")) (.ok mergeDoc) none =
      (false, [(LogLevel.warn, mergeFailureMessage "Root" (.ioError "read failed"))],
       .ok mergeDoc) :=
  (C8_merge_failures_contained 0 "Root" mergeLookup
      (.error (.ioError "read failed")) (.ok mergeDoc) none).1
    (.ioError "read failed") rfl

/-- C10: whenever the merge returns failure, the target document file's content
is exactly what it was before the call — every modification happens on the
in-memory object and the write-back is the final step of a successful merge
(the write itself is modelled as atomic: it either replaces the content or
fails leaving it unchanged). -/
theorem C10_merge_failure_is_atomic (project : Nat) (projectName : String)
    (lookup : List (Nat × String)) (fragment : Except PyError JsonFragment)
    (target : Except PyError JsonDocument) (writeResult : Option PyError)
    (log : List (LogLevel × String)) (after : Except PyError JsonDocument)
    (h : MergeDependencyMetadataSbomIntoCustomSoftwareSbom project projectName lookup
      fragment target writeResult = (false, log, after)) :
    after = target := by
  unfold MergeDependencyMetadataSbomIntoCustomSoftwareSbom at h
  cases hb : mergeBody project lookup fragment target with
  | error e =>
    rw [hb] at h
    simp only [Prod.mk.injEq] at h
    exact h.2.2.symm
  | ok d =>
    rw [hb] at h
    cases writeResult with
    | none => simp at h
    | some e =>
      simp only [Prod.mk.injEq] at h
      exact h.2.2.symm

/-- A fragment document lacking the expected `components` key. -/
def keylessFrag : JsonFragment := { components := none }

/-- Witness for C10: a merge that fails on the malformed fragment leaves the
target file content exactly as it was. -/
theorem C10_merge_failure_is_atomic_witness :
    (Except.ok mergeDoc : Except PyError JsonDocument) = .ok mergeDoc :=
  C10_merge_failure_is_atomic 0 "Root" mergeLookup (.ok keylessFrag) (.ok mergeDoc)
    none [(LogLevel.warn, mergeFailureMessage "Root" (.keyError "components"))]
    (.ok mergeDoc) (by rfl)

lemma buildEdgesAux_refs {g : ProjectGraph} {lookup : List (Nat × String)} :
    ∀ {rem : List (Nat × String)} {edges : List JsonEdge},
      buildEdgesAux g lookup rem = .ok edges →
      edges.map JsonEdge.ref = rem.map (fun pr => some pr.2) := by
  intro rem
  induction rem with
  | nil =>
    intro edges h
    simp only [buildEdgesAux, Except.ok.injEq] at h
    subst h
    rfl
  | cons pr rest ih =>
    intro edges h
    obtain ⟨p, uid⟩ := pr
    rw [buildEdgesAux] at h
    cases hm : mapLookup lookup (g.GetImmediateDependencies p) with
    | error e => rw [hm] at h; exact absurd h (by simp)
    | ok dep =>
      rw [hm] at h
      cases ht : buildEdgesAux g lookup rest with
      | error e => rw [ht] at h; exact absurd h (by simp)
      | ok tail =>
        rw [ht] at h
        simp only [Except.ok.injEq] at h
        subst h
        simp [ih ht]

/-- The root project used in the concrete assembled document. -/
def rootProjectNode : ProjectNode :=
  { Name := "Root", version_number := some "1.0",
    license_name := some "Your Organization Proprietary",
    sbom_package_url := none, sbom_unique_id := none, IsThirdParty := false,
    IsLibrary := false, IsDefaultVersionProject := false }

/-- A graph holding only the root project. -/
def rootOnlyGraph : ProjectGraph :=
  { nodes := fun _ => rootProjectNode, GetAllDependencies := fun _ => [],
    GetImmediateDependencies := fun _ => [] }

/-- C2 counterexample: assembling the one-project document and merging one
fragment component succeeds, after which the document has two components but
still only one dependency entry — the components/edges one-to-one
correspondence is not preserved by the Merge Engine. -/
theorem C2_post_merge_cardinality_counterexample :
    GenerateInitialCustomSoftwareSbom rootOnlyGraph exampleOptions 0 "t" =
      .ok (mergeDoc, mergeLookup) ∧
    MergeDependencyMetadataSbomIntoCustomSoftwareSbom 0 "Root" mergeLookup
      (.ok mergeFrag) (.ok mergeDoc) none =
      (true, [(LogLevel.info, mergeSuccessMessage "Root")], .ok mergedDoc) ∧
    mergedDoc.components.length = 2 ∧ mergedDoc.dependencies.length = 1 ∧
    (2 : Nat) ≠ 1 :=
  ⟨rfl, rfl, rfl, rfl, by decide⟩

/-- C2 (amended): in the initially assembled document the component ids and the
dependency-entry refs match one-to-one in order; a Merge Engine invocation
leaves the refs of the dependency entries exactly as they were while appending
the new components, so merged-in components gain no dependency entry of their
own and the one-to-one correspondence holds only for the initial document. -/
theorem C2_components_edges_correspondence (g : ProjectGraph) (opts : Options)
    (t : Nat) (timestamp : String) :
    (∀ doc lookup,
      GenerateInitialCustomSoftwareSbom g opts t timestamp = .ok (doc, lookup) →
      doc.components.map JsonComponent.bomRef = doc.dependencies.map JsonEdge.ref) ∧
    (∀ (project : Nat) (projectName : String) (lookup : List (Nat × String))
       (frag : JsonFragment) (doc newDoc : JsonDocument)
       (log : List (LogLevel × String)),
      MergeDependencyMetadataSbomIntoCustomSoftwareSbom project projectName lookup
        (.ok frag) (.ok doc) none = (true, log, .ok newDoc) →
      newDoc.dependencies.map JsonEdge.ref = doc.dependencies.map JsonEdge.ref ∧
      ∃ appended, newDoc.components = doc.components ++ appended) := by
  constructor
  · intro doc lookup h
    unfold GenerateInitialCustomSoftwareSbom at h
    cases hb : GetSbomComponentJsonObjectsForProjectAndDependencies g opts t with
    | error e => rw [hb] at h; exact absurd h (by simp)
    | ok pair =>
      obtain ⟨comps, lk⟩ := pair
      rw [hb] at h
      simp only at h
      cases he : GetSbomDependencyJsonObjects g lk with
      | error e => rw [he] at h; exact absurd h (by simp)
      | ok edges =>
        rw [he] at h
        simp only [Except.ok.injEq, Prod.mk.injEq] at h
        obtain ⟨hdoc, -⟩ := h
        subst hdoc
        have hinv := buildComponentsAux_ok_invariant g opts _ [] [] comps lk hb
          rfl (by simp)
        have hrefs := buildEdgesAux_refs he
        simp only [List.map_map]
        rw [hrefs]
        have : (JsonComponent.bomRef ∘ Component.toJson) =
            fun c => some (Component.bomRef c) := rfl
        rw [this]
        have h2 : (fun pr : Nat × String => some pr.2) =
            (fun s => some s) ∘ Prod.snd := rfl
        rw [h2, ← List.map_map, hinv.1, List.map_map]
        rfl
  · intro project projectName lookup frag doc newDoc log h
    obtain ⟨-, d, hbody, hout, -⟩ := merge_ok_inversion h
    have hd : d = newDoc := Except.ok.inj hout.symm
    rw [hd] at hbody
    obtain ⟨fcs, ids0, newComps, idsF, added, oid, lkE, e0, old,
      hfc, hci, haf, hlu, hbe, hdf, hdo, hdoc1⟩ := mergeBody_ok_inversion hbody
    obtain ⟨newC, newI, hcomps, -, -, -, -⟩ := addFragComponents_chars haf
    constructor
    · rw [hdoc1]
      simp only
      exact updateLastEdge_map_ref doc.dependencies oid (appendNewDeps old added)
    · refine ⟨newC, ?_⟩
      rw [hdoc1]
      simp only
      exact hcomps

/-- Witness for the amended C2: the concrete initial document's component ids
equal its edge refs in order, and the concrete merge preserves the refs while
appending one component. -/
theorem C2_components_edges_correspondence_witness :
    mergeDoc.components.map JsonComponent.bomRef =
      mergeDoc.dependencies.map JsonEdge.ref ∧
    (mergedDoc.dependencies.map JsonEdge.ref =
      mergeDoc.dependencies.map JsonEdge.ref ∧
    ∃ appended, mergedDoc.components = mergeDoc.components ++ appended) :=
  ⟨(C2_components_edges_correspondence rootOnlyGraph exampleOptions 0 "t").1
      mergeDoc mergeLookup (by rfl),
   (C2_components_edges_correspondence rootOnlyGraph exampleOptions 0 "t").2
      0 "Root" mergeLookup mergeFrag mergeDoc mergedDoc
      [(LogLevel.info, mergeSuccessMessage "Root")] (by rfl)⟩
